import Mathlib

/-!
# DP-1 Feed Operator API — storage/indexing layer, shallow embedding

This file embeds the storage engine, reference resolver and HTTP-handler
fragments of the dp1-feed repository (playlists, playlist groups, playlist
items over a namespaced key-value store with derived indexes) and proves the
behavioural claims about them.

The repository ships its storage layer only through its test-suite
(`storage.test.ts`, the API test file) in this source tree; the engine itself
(`storage.ts`, `index.ts`) is not present.  Definitions below therefore follow
the specification's description of each operation, pinned down by the concrete
expectations of the in-tree tests (key formats, mock KV `list` semantics,
self-hosted URL handling, protected-field validation, limit validation).
Strings are modelled through their underlying character lists so that every
definition evaluates by kernel reduction.
-/

namespace DP1

/-! ## Character-list string utilities

All string inspection goes through `String.data` so that definitions reduce
in the kernel.  `chStartsWith`, `chDrop`, `chSplitComma` mirror JavaScript's
`String.prototype.startsWith`, `substring`, and `split(',')`. -/

/-- `pfx` is a leading substring of `s` (JS `s.startsWith(pfx)`). -/
def chStartsWith (s pfx : String) : Bool :=
  pfx.data.isPrefixOf s.data

/-- Drop the first `n` characters of `s` (JS `s.substring(n)`). -/
def chDrop (s : String) (n : Nat) : String :=
  String.mk (s.data.drop n)

/-- Split a character list at every `','` (JS `s.split(',')`). -/
def chSplitCommaAux : List Char → List (List Char)
  | [] => [[]]
  | c :: rest =>
    if c = ',' then [] :: chSplitCommaAux rest
    else
      match chSplitCommaAux rest with
      | [] => [[c]]
      | h :: t => (c :: h) :: t

/-- Split a string at commas (JS `s.split(',')`). -/
def chSplitComma (s : String) : List String :=
  (chSplitCommaAux s.data).map String.mk

/-- Character membership in a string. -/
def chContains (s : String) (c : Char) : Bool :=
  s.data.contains c

/-- JS-style lexicographic string comparison used by the KV mock's
`Array.prototype.sort()` and by cursor comparison `key > cursor`. -/
def strLtB (a b : String) : Bool :=
  decide (a.data < b.data)

/-- Non-strict counterpart of `strLtB`; the sort predicate. -/
def strLeB (a b : String) : Bool :=
  decide (a.data ≤ b.data)

/-! ## Data model (src/types.ts)

`Playlist`, `PlaylistItem`, `PlaylistGroup` as described by the spec's data
model section and exercised field-for-field by the tests.  Optional metadata
objects (`defaults`, `display`, …) are carried as opaque `Option String`
payloads: the storage layer never inspects them. -/

structure PlaylistItem where
  id : String
  title : String
  source : String
  duration : Nat
  license : String
deriving DecidableEq, Repr

structure Playlist where
  dpVersion : String
  id : String
  slug : String
  title : String
  created : String
  items : List PlaylistItem
  defaults : Option String
  signature : Option String
deriving DecidableEq, Repr

structure PlaylistGroup where
  id : String
  slug : String
  title : String
  curator : String
  created : String
  playlists : List String
deriving DecidableEq, Repr

/-- A value stored in a KV namespace.  The engine serialises records to JSON
strings; serialisation being injective with a matching parser, a stored value
is modelled as the parsed record itself, and plain string values (slug
pointers, index markers, mapping values) as `str`. -/
inductive StoreVal where
  | str (s : String)
  | playlist (p : Playlist)
  | group (g : PlaylistGroup)
  | item (i : PlaylistItem)
deriving DecidableEq, Repr

/-! ## Key-value store

The get/put/delete/list-with-prefix contract consumed by the engine, with
`list` mirroring the mock KV implementation of `storage.test.ts` lines 70–95:
keys are sorted lexicographically, filtered by prefix, the cursor selects the
first strictly greater key, `hasMore` is `startIndex + limit < total`, and the
returned cursor is the last returned key. -/

/-- A KV namespace: an association list of string keys to values.
`put` keeps keys duplicate-free. -/
abbrev KV := List (String × StoreVal)

namespace KV

def get : KV → String → Option StoreVal
  | [], _ => none
  | (k', v) :: rest, k => if k' = k then some v else get rest k

def del (kv : KV) (k : String) : KV :=
  kv.filter (fun p => !decide (p.1 = k))

def put (kv : KV) (k : String) (v : StoreVal) : KV :=
  (k, v) :: kv.del k

def keys (kv : KV) : List String :=
  kv.map Prod.fst

/-- All keys of `kv` that start with `pfx`, in JS sort order. -/
def sortedKeysWith (kv : KV) (pfx : String) : List String :=
  ((kv.keys.filter (fun k => chStartsWith k pfx)).mergeSort strLeB)

/-- Result shape of the KV `list` contract. -/
structure ListResult where
  keys : List String
  cursor : Option String
  listComplete : Bool
deriving Repr

/-- Index of the first key strictly greater than the cursor `c`
(JS `findIndex(key => key > cursor)`, falling back to `length`). -/
def startIdx (c : String) : List String → Nat
  | [] => 0
  | k :: rest => if strLtB c k then 0 else startIdx c rest + 1

/-- The mock KV `list` operation (storage.test.ts lines 70–95):
`options.limit || 1000` treats absent and zero limits as 1000. -/
def list (kv : KV) (pfx : String) (limit? : Option Nat) (cursor : Option String) :
    ListResult :=
  let allKeys := kv.sortedKeysWith pfx
  let start := match cursor with
    | none => 0
    | some c => startIdx c allKeys
  let limit := match limit? with
    | none => 1000
    | some l => if l = 0 then 1000 else l
  let page := (allKeys.drop start).take limit
  let hasMore := decide (start + limit < allKeys.length)
  { keys := page
    cursor := if hasMore then page.getLast? else none
    listComplete := !hasMore }

end KV

/-! ## Environment and storage keys

One KV namespace per entity kind (`DP1_PLAYLISTS`, `DP1_PLAYLIST_GROUPS`,
`DP1_PLAYLIST_ITEMS`) plus the `SELF_HOSTED_DOMAINS` configuration string.
Key formats are the ones asserted by storage.test.ts lines 497–505. -/

structure Env where
  playlists : KV
  playlistGroups : KV
  playlistItems : KV
  selfHostedDomains : Option String
deriving Repr, DecidableEq

def Env.empty : Env :=
  { playlists := [], playlistGroups := [], playlistItems := [], selfHostedDomains := none }

def KEY_PLAYLIST_ID : String := "playlist:id:"
def KEY_PLAYLIST_SLUG : String := "playlist:slug:"
def KEY_PLAYLIST_ITEM_ID : String := "playlist-item:id:"
def KEY_GROUP_ID : String := "playlist-group:id:"
def KEY_GROUP_SLUG : String := "playlist-group:slug:"
def KEY_PLAYLIST_BY_GROUP : String := "playlist:playlist-group-id:"
def KEY_PLAYLIST_TO_GROUPS : String := "playlist-to-groups:"
def KEY_GROUP_TO_PLAYLISTS : String := "group-to-playlists:"

def idKey (id : String) : String := KEY_PLAYLIST_ID ++ id
def slugKey (slug : String) : String := KEY_PLAYLIST_SLUG ++ slug
def itemKey (id : String) : String := KEY_PLAYLIST_ITEM_ID ++ id
def groupIdKey (id : String) : String := KEY_GROUP_ID ++ id
def groupSlugKey (slug : String) : String := KEY_GROUP_SLUG ++ slug
/-- `playlist:playlist-group-id:{groupId}:{playlistId}` presence index. -/
def pbgKey (gid pid : String) : String := KEY_PLAYLIST_BY_GROUP ++ (gid ++ (":" ++ pid))
/-- `playlist-to-groups:{playlistId}:{groupId}` forward mapping. -/
def ptgKey (pid gid : String) : String := KEY_PLAYLIST_TO_GROUPS ++ (pid ++ (":" ++ gid))
/-- `group-to-playlists:{groupId}:{playlistId}` reverse mapping. -/
def gtpKey (gid pid : String) : String := KEY_GROUP_TO_PLAYLISTS ++ (gid ++ (":" ++ pid))

/-! ## UUID shape test -/

def isHexDigit (c : Char) : Bool :=
  (decide ('0' ≤ c) && decide (c ≤ '9')) ||
  (decide ('a' ≤ c) && decide (c ≤ 'f')) ||
  (decide ('A' ≤ c) && decide (c ≤ 'F'))

def isUuidChunk (l : List Char) (n : Nat) : Bool :=
  decide (l.length = n) && l.all isHexDigit

/-- Split a character list at every `'-'`. -/
def chSplitDashAux : List Char → List (List Char)
  | [] => [[]]
  | c :: rest =>
    if c = '-' then [] :: chSplitDashAux rest
    else
      match chSplitDashAux rest with
      | [] => [[c]]
      | h :: t => (c :: h) :: t

/-- The 8-4-4-4-12 hexadecimal UUID shape used to tell IDs from slugs. -/
def isUuidFormat (s : String) : Bool :=
  match chSplitDashAux s.data with
  | [a, b, c, d, e] =>
    isUuidChunk a 8 && isUuidChunk b 4 && isUuidChunk c 4 &&
    isUuidChunk d 4 && isUuidChunk e 12
  | _ => false

/-! ## Storage engine: playlists

Modelled from the spec: `savePlaylist` (storage.ts is absent from the tree)
writes the full record under the ID key, a slug → ID pointer, and each item
under its own ID key in the item namespace; on update it first deletes the
previous version's item records so that replaced items no longer resolve.
`getPlaylistByIdOrSlug` does a direct ID lookup for UUID-shaped keys and a
slug-pointer indirection otherwise, returning `none` when absent. -/

def getPlaylistById (env : Env) (id : String) : Option Playlist :=
  match env.playlists.get (idKey id) with
  | some (.playlist p) => some p
  | _ => none

def getPlaylistByIdOrSlug (env : Env) (key : String) : Option Playlist :=
  if isUuidFormat key then
    getPlaylistById env key
  else
    match env.playlists.get (slugKey key) with
    | some (.str id) => getPlaylistById env id
    | _ => none

def getPlaylistItemById (env : Env) (id : String) : Option PlaylistItem :=
  match env.playlistItems.get (itemKey id) with
  | some (.item i) => some i
  | _ => none

/-- Modelled from the spec: `savePlaylist` of the absent storage.ts.
`update = true` is the PUT path: the stored previous version's item records
are deleted before the new record, slug pointer, and fresh item records are
written.  The underlying store never fails here, so the call reports `true`. -/
def savePlaylist (env : Env) (p : Playlist) (update : Bool) : Bool × Env :=
  let env :=
    if update then
      match getPlaylistById env p.id with
      | some old =>
        { env with
          playlistItems :=
            old.items.foldl (fun kv it => kv.del (itemKey it.id)) env.playlistItems }
      | none => env
    else env
  let playlists := (env.playlists.put (idKey p.id) (.playlist p)).put
      (slugKey p.slug) (.str p.id)
  let items := p.items.foldl (fun kv it => kv.put (itemKey it.id) (.item it))
      env.playlistItems
  (true, { env with playlists := playlists, playlistItems := items })

/-! ## Reference resolver (spec section 4.3)

Modelled from the spec: `resolvePlaylistReference` of the absent storage.ts.
A URL is self-hosted exactly when `SELF_HOSTED_DOMAINS` is configured and the
URL's `host[:port]` equals one of its comma-separated entries.  Self-hosted
references are resolved by a purely local lookup of the trailing path segment
after `/api/v1/playlists/`; other references go through an HTTP GET, which is
modelled as an oracle `Fetcher` (`none` = non-200 or schema-invalid body). -/

/-- Strip a `https://` or `http://` scheme, yielding the remaining characters. -/
def stripScheme (url : String) : Option (List Char) :=
  if "https://".data.isPrefixOf url.data then some (url.data.drop 8)
  else if "http://".data.isPrefixOf url.data then some (url.data.drop 7)
  else none

/-- The `host[:port]` part of a URL: everything between the scheme and the
first `/` (JS `new URL(url).host`). -/
def getUrlHost (url : String) : Option String :=
  (stripScheme url).map (fun rest =>
    String.mk (rest.takeWhile (fun c => !decide (c = '/'))))

/-- The path of a URL: from the first `/` after the host up to the query
string (JS `new URL(url).pathname`). -/
def getUrlPath (url : String) : Option (List Char) :=
  (stripScheme url).map (fun rest =>
    (rest.dropWhile (fun c => !decide (c = '/'))).takeWhile (fun c => !decide (c = '?')))

/-- The URL's host matches an entry of the configured comma-separated
self-hosted domain list (exact `host[:port]` string equality). -/
def isSelfHostedUrl (url : String) (domains : Option String) : Bool :=
  match domains with
  | none => false
  | some ds =>
    match getUrlHost url with
    | none => false
    | some h => (chSplitComma ds).contains h

def API_PLAYLIST_PATH : String := "/api/v1/playlists/"

/-- The trailing path segment after the fixed `/api/v1/playlists/` path;
`none` when the path shape does not match. -/
def extractFromPath (path : List Char) : Option String :=
  if API_PLAYLIST_PATH.data.isPrefixOf path then
    let ident := path.drop API_PLAYLIST_PATH.data.length
    if ident.isEmpty || ident.contains '/' then none
    else some (String.mk ident)
  else none

/-- The playlist identifier (UUID or slug) of a self-hosted URL: the trailing
path segment after the fixed `/api/v1/playlists/` path, query ignored;
`none` when the path shape does not match. -/
def extractPlaylistIdentifier (url : String) : Option String :=
  match getUrlPath url with
  | none => none
  | some path => extractFromPath path

/-- Reference-resolution failures (spec section 7). -/
inductive RefError where
  | format (url : String)
  | notFound (identifier : String)
  | fetchFail (url : String)
deriving DecidableEq, Repr

/-- A resolved reference, tagged by provenance: only `external` results are
re-persisted by the caller. -/
inductive Resolved where
  | selfHosted (p : Playlist)
  | external (p : Playlist)
deriving DecidableEq, Repr

def Resolved.playlist : Resolved → Playlist
  | .selfHosted p => p
  | .external p => p

def Resolved.isExternal : Resolved → Bool
  | .selfHosted _ => false
  | .external _ => true

/-- The HTTP GET oracle for external references: `some p` models a 200
response whose body parses as the valid signed playlist `p`. -/
abbrev Fetcher := String → Option Playlist

/-- Modelled from the spec: `resolvePlaylistReference` of the absent
storage.ts.  Self-hosted URLs never consult the fetcher. -/
def resolvePlaylistReference (env : Env) (fetch : Fetcher) (url : String) :
    Except RefError Resolved :=
  if isSelfHostedUrl url env.selfHostedDomains then
    match extractPlaylistIdentifier url with
    | none => .error (.format url)
    | some ident =>
      match getPlaylistByIdOrSlug env ident with
      | none => .error (.notFound ident)
      | some p => .ok (.selfHosted p)
  else
    match fetch url with
    | none => .error (.fetchFail url)
    | some p => .ok (.external p)

/-- Resolve every reference of a group, left to right, stopping at the first
failure (all resolution happens before any write). -/
def resolveRefs (env : Env) (fetch : Fetcher) : List String → Except RefError (List Resolved)
  | [] => .ok []
  | url :: rest =>
    match resolvePlaylistReference env fetch url with
    | .error e => .error e
    | .ok r =>
      match resolveRefs env fetch rest with
      | .error e => .error e
      | .ok rs => .ok (r :: rs)

/-! ## Storage engine: playlist groups

Modelled from the spec: `savePlaylistGroup` of the absent storage.ts.
Resolve all references first; abort with `false` and no writes on any
failure.  On success: prune index/mapping entries of playlists no longer
referenced (set difference against the reverse-mapping scan), write the group
record and slug pointer, persist externally fetched playlists (self-hosted
ones are already present and are not rewritten), then write the
`playlist-by-group` index and both bidirectional mappings for every
referenced playlist. -/

/-- Delete the three derived entries (group index, forward mapping, reverse
mapping) of every formerly referenced playlist that the new reference list no
longer contains. -/
def cleanupRemovedMappings (kv : KV) (gid : String) (newIds : List String) : KV :=
  let pfx := KEY_GROUP_TO_PLAYLISTS ++ (gid ++ ":")
  let oldIds := (kv.sortedKeysWith pfx).map (fun k => chDrop k pfx.length)
  let removed := oldIds.filter (fun pid => !newIds.contains pid)
  removed.foldl (fun kv pid =>
    ((kv.del (pbgKey gid pid)).del (ptgKey pid gid)).del (gtpKey gid pid)) kv

/-- Write the `playlist-by-group` index entry and both bidirectional mapping
entries for one referenced playlist. -/
def writeGroupIndexes (gid : String) (kv : KV) (pid : String) : KV :=
  ((kv.put (pbgKey gid pid) (.str "1")).put
    (ptgKey pid gid) (.str gid)).put
    (gtpKey gid pid) (.str pid)

/-- Persist the records of externally fetched playlists; self-hosted ones
are already present locally and are skipped. -/
def persistExternals (resolved : List Resolved) (env : Env) : Env :=
  resolved.foldl (fun e r => if r.isExternal then (savePlaylist e r.playlist false).2 else e) env

/-- Write the index and mapping entries of every referenced playlist. -/
def writeAllIndexes (gid : String) (ids : List String) (kv : KV) : KV :=
  ids.foldl (writeGroupIndexes gid) kv

/-- Modelled from the spec: `savePlaylistGroup` of the absent storage.ts. -/
def savePlaylistGroup (env : Env) (fetch : Fetcher) (g : PlaylistGroup) : Bool × Env :=
  match resolveRefs env fetch g.playlists with
  | .error _ => (false, env)
  | .ok resolved =>
    let newIds := resolved.map (fun r => r.playlist.id)
    let env := { env with playlists := cleanupRemovedMappings env.playlists g.id newIds }
    let env := { env with
      playlistGroups := (env.playlistGroups.put (groupIdKey g.id) (.group g)).put
        (groupSlugKey g.slug) (.str g.id) }
    let env := persistExternals resolved env
    let env := { env with
      playlists := writeAllIndexes g.id newIds env.playlists }
    (true, env)

def getPlaylistGroupByIdOrSlug (env : Env) (key : String) : Option PlaylistGroup :=
  let byId := fun id =>
    match env.playlistGroups.get (groupIdKey id) with
    | some (.group g) => some g
    | _ => none
  if isUuidFormat key then byId key
  else
    match env.playlistGroups.get (groupSlugKey key) with
    | some (.str id) => byId id
    | _ => none

/-- Scan the forward mapping namespace and return the group IDs stored as
values of `playlist-to-groups:{playlistId}:*` entries. -/
def getPlaylistGroupsForPlaylist (env : Env) (pid : String) : List String :=
  let pfx := KEY_PLAYLIST_TO_GROUPS ++ (pid ++ ":")
  (env.playlists.sortedKeysWith pfx).filterMap (fun k =>
    match env.playlists.get k with
    | some (.str gid) => some gid
    | _ => none)

/-! ## Listing with pagination -/

structure Paginated (α : Type) where
  items : List α
  hasMore : Bool
  cursor : Option String
deriving Repr

def parsePlaylistVal : Option StoreVal → Option Playlist
  | some (.playlist p) => some p
  | _ => none

/-- Modelled from the spec: `listAllPlaylists` of the absent storage.ts.
Prefix-scan of the ID-keyed namespace; each returned key is resolved to its
record; `hasMore`/`cursor` pass the KV list contract through. -/
def listAllPlaylists (env : Env) (limit? : Option Nat) (cursor : Option String) :
    Paginated Playlist :=
  let r := env.playlists.list KEY_PLAYLIST_ID limit? cursor
  { items := r.keys.filterMap (fun k => parsePlaylistVal (env.playlists.get k))
    hasMore := !r.listComplete
    cursor := r.cursor }

def parseItemVal : Option StoreVal → Option PlaylistItem
  | some (.item i) => some i
  | _ => none

/-- Modelled from the spec: the playlist-item listing of the absent storage.ts
(prefix-scan of the item namespace, same pagination contract). -/
def listAllPlaylistItems (env : Env) (limit? : Option Nat) (cursor : Option String) :
    Paginated PlaylistItem :=
  let r := env.playlistItems.list KEY_PLAYLIST_ITEM_ID limit? cursor
  { items := r.keys.filterMap (fun k => parseItemVal (env.playlistItems.get k))
    hasMore := !r.listComplete
    cursor := r.cursor }

/-- Modelled from the spec: the group-filtered playlist-item listing of the
absent index.ts — the items of every playlist indexed under the group,
paginated in order with at most `limit` items per page. -/
def listPlaylistItemsByGroup (env : Env) (gid : String) (limit : Nat) :
    Paginated PlaylistItem :=
  let pfx := KEY_PLAYLIST_BY_GROUP ++ (gid ++ ":")
  let pids := (env.playlists.sortedKeysWith pfx).map (fun k => chDrop k pfx.length)
  let allItems := (pids.filterMap (getPlaylistById env)).flatMap Playlist.items
  let page := allItems.take limit
  { items := page
    hasMore := decide (limit < allItems.length)
    cursor := if limit < allItems.length then (page.map (itemKey ∘ PlaylistItem.id)).getLast? else none }

/-! ## HTTP handler layer (index.ts, absent from the tree)

Modelled from the spec: the PUT update handlers with protected-field
validation, the item-replacement behaviour of playlist updates, and the
`limit` query-parameter validation of the listing endpoints, pinned down by
the API tests (protected fields, fresh item UUIDs, `invalid_limit`). -/

/-- Error responses of the handlers (`error` field of the JSON body). -/
inductive ApiError where
  | protectedFields
  | notFound
  | invalidLimit
  | resolveFailed
deriving DecidableEq, Repr

/-- An incoming playlist item: any client-supplied `id` is ignored. -/
structure ItemInput where
  id : Option String
  title : String
  source : String
  duration : Nat
  license : String
deriving DecidableEq, Repr

/-- PUT /playlists/:id body.  `id`, `slug`, `dpVersion`, `created` are
protected fields: a payload carrying any of them is rejected. -/
structure PlaylistUpdateBody where
  id : Option String
  slug : Option String
  dpVersion : Option String
  created : Option String
  title : Option String
  defaults : Option String
  items : List ItemInput
deriving DecidableEq, Repr

/-- PUT /playlist-groups/:id body.  `id`, `slug`, `created` are protected. -/
structure GroupUpdateBody where
  id : Option String
  slug : Option String
  created : Option String
  title : String
  curator : String
  playlists : List String
deriving DecidableEq, Repr

/-- Modelled from the spec: item processing of the absent index.ts — every
incoming item is assigned a freshly generated UUID (drawn here from the
`freshIds` stream); any client-supplied item id is discarded. -/
def processItems (freshIds : List String) (items : List ItemInput) : List PlaylistItem :=
  (items.zip freshIds).map (fun x =>
    { id := x.2, title := x.1.title, source := x.1.source,
      duration := x.1.duration, license := x.1.license })

/-- Modelled from the spec: the PUT /playlists/:id handler of the absent
index.ts.  Protected fields are rejected before anything is read or written;
otherwise the stored record's `id`, `slug`, `dpVersion`, `created` are
preserved, the item set is replaced with freshly identified items, and the
result is saved in update mode (deleting the previous item records).
`newSig` stands for the re-computed server signature. -/
def handleUpdatePlaylist (env : Env) (key : String) (body : PlaylistUpdateBody)
    (freshIds : List String) (newSig : Option String) :
    Except ApiError Playlist × Env :=
  if body.id.isSome || body.slug.isSome || body.dpVersion.isSome || body.created.isSome then
    (.error .protectedFields, env)
  else
    match getPlaylistByIdOrSlug env key with
    | none => (.error .notFound, env)
    | some p0 =>
      let p : Playlist :=
        { dpVersion := p0.dpVersion
          id := p0.id
          slug := p0.slug
          title := body.title.getD p0.title
          created := p0.created
          items := processItems freshIds body.items
          defaults := body.defaults
          signature := newSig }
      ((.ok p), (savePlaylist env p true).2)

/-- Modelled from the spec: the POST /playlists handler of the absent
index.ts — the server assigns `id`, `slug`, `created`, `signature`, and every
item gets a freshly generated UUID regardless of client-supplied ids. -/
def handleCreatePlaylist (env : Env) (dpVersion title : String)
    (defaults : Option String) (items : List ItemInput)
    (newId newSlug created : String) (freshIds : List String) (newSig : Option String) :
    Playlist × Env :=
  let p : Playlist :=
    { dpVersion := dpVersion, id := newId, slug := newSlug, title := title,
      created := created, items := processItems freshIds items,
      defaults := defaults, signature := newSig }
  (p, (savePlaylist env p false).2)

/-- Modelled from the spec: the PUT /playlist-groups/:id handler of the
absent index.ts.  Protected fields are rejected; otherwise the stored
record's `id`, `slug`, `created` are preserved (the slug is never
regenerated) and the group is re-saved through reference resolution. -/
def handleUpdatePlaylistGroup (env : Env) (fetch : Fetcher) (key : String)
    (body : GroupUpdateBody) : Except ApiError PlaylistGroup × Env :=
  if body.id.isSome || body.slug.isSome || body.created.isSome then
    (.error .protectedFields, env)
  else
    match getPlaylistGroupByIdOrSlug env key with
    | none => (.error .notFound, env)
    | some g0 =>
      let g : PlaylistGroup :=
        { id := g0.id, slug := g0.slug, title := body.title,
          curator := body.curator, created := g0.created,
          playlists := body.playlists }
      match savePlaylistGroup env fetch g with
      | (true, env') => (.ok g, env')
      | (false, env') => (.error .resolveFailed, env')

/-- Modelled from the spec: GET /api/v1/playlists limit validation of the
absent index.ts — `limit` outside 1..1000 is rejected as `invalid_limit`
before any listing happens. -/
def handleListPlaylists (env : Env) (limitParam : Option Nat) (cursor : Option String) :
    Except ApiError (Paginated Playlist) :=
  let limit := limitParam.getD 100
  if limit < 1 || 1000 < limit then .error .invalidLimit
  else .ok (listAllPlaylists env (some limit) cursor)

/-- Modelled from the spec: GET /api/v1/playlist-items limit validation of
the absent index.ts — `limit` outside 1..100 is rejected as `invalid_limit`
before any listing happens. -/
def handleListPlaylistItems (env : Env) (group? : Option String)
    (limitParam : Option Nat) (cursor : Option String) :
    Except ApiError (Paginated PlaylistItem) :=
  let limit := limitParam.getD 100
  if limit < 1 || 100 < limit then .error .invalidLimit
  else
    match group? with
    | none => .ok (listAllPlaylistItems env (some limit) cursor)
    | some gid => .ok (listPlaylistItemsByGroup env gid limit)

/-! ## Pagination driver

`collectPages` follows returned cursors until a page reports
`hasMore = false`; the boolean records that the sequence did terminate that
way within the given fuel. -/

def collectPages (env : Env) (limit : Nat) : Nat → Option String → List Playlist × Bool
  | 0, _ => ([], false)
  | fuel + 1, cursor =>
    let r := listAllPlaylists env (some limit) cursor
    if r.hasMore then
      match r.cursor with
      | some c =>
        let rest := collectPages env limit fuel (some c)
        (r.items ++ rest.1, rest.2)
      | none => (r.items, false)
    else (r.items, true)

/-- The scan index a cursor denotes in the sorted key list. -/
def cursorStart (A : List String) : Option String → Nat
  | none => 0
  | some c => KV.startIdx c A

/-- The canonical enumeration of all stored playlist records, in key order. -/
def storedPlaylists (env : Env) : List Playlist :=
  (env.playlists.sortedKeysWith KEY_PLAYLIST_ID).filterMap
    (fun k => parsePlaylistVal (env.playlists.get k))

/-- Every `playlist:id:`-prefixed entry is a playlist record stored under its
own id's key (store well-formedness, maintained by every save path). -/
def playlistRecordsWF (env : Env) : Bool :=
  env.playlists.all (fun kv =>
    !(chStartsWith kv.1 KEY_PLAYLIST_ID) ||
    (match kv.2 with
     | .playlist p => decide (kv.1 = idKey p.id)
     | _ => false))

/-! ## Concrete fixtures

Sample records and environments mirroring the test-suite data, used to
instantiate the claim theorems at concrete inputs. -/

def noFetch : Fetcher := fun _ => none

def c1Env : Env :=
  { Env.empty with selfHostedDomains := some "api.feed.feralfile.com" }

def c1Group : PlaylistGroup :=
  { id := "6ba7b810-9dad-11d1-80b4-00c04fd430c8", slug := "test-exhibition-1234",
    title := "Test Exhibition", curator := "Test Curator",
    created := "2024-01-01T00:00:00Z",
    playlists := ["https://api.feed.feralfile.com/invalid/path/format"] }

def c3Playlist : Playlist :=
  { dpVersion := "1.0.0", id := "550e8400-e29b-41d4-a716-446655440000",
    slug := "test-playlist-1234", title := "Test Playlist",
    created := "2024-01-01T00:00:00Z",
    items := [{ id := "550e8400-e29b-41d4-a716-446655440001", title := "Test Artwork",
                source := "https://example.com/artwork.html", duration := 300,
                license := "open" }],
    defaults := none, signature := none }

def c4Env : Env :=
  { Env.empty with
    selfHostedDomains := some "api.feed.feralfile.com,localhost:8787" }

def c4FetchSome : Fetcher := fun _ => some c3Playlist

def c2P2 : Playlist :=
  { c3Playlist with
    id := "550e8400-e29b-41d4-a716-446655440002"
    slug := "test-playlist-2"
    items := [] }

def c2Fetch : Fetcher := fun url =>
  if url = "https://example.com/playlists/550e8400-e29b-41d4-a716-446655440000" then
    some c3Playlist
  else if url = "https://example.com/playlists/550e8400-e29b-41d4-a716-446655440002" then
    some c2P2
  else none

def c2Group : PlaylistGroup :=
  { id := "6ba7b810-9dad-11d1-80b4-00c04fd430c8", slug := "test-exhibition-1234",
    title := "Test Exhibition", curator := "Test Curator",
    created := "2024-01-01T00:00:00Z",
    playlists := ["https://example.com/playlists/550e8400-e29b-41d4-a716-446655440000",
                  "https://example.com/playlists/550e8400-e29b-41d4-a716-446655440002"] }

def c2Group2 : PlaylistGroup :=
  { c2Group with
    playlists := ["https://example.com/playlists/550e8400-e29b-41d4-a716-446655440000"] }

def c5SelfPlaylist : Playlist :=
  { dpVersion := "1.0.0", id := "123e4567-e89b-12d3-a456-426614174000",
    slug := "self-hosted-playlist", title := "Self-Hosted Playlist",
    created := "2024-01-01T00:00:00Z",
    items := [{ id := "550e8400-e29b-41d4-a716-446655440001", title := "Self-Hosted Item 1",
                source := "https://example.com/self-hosted-artwork.html", duration := 600,
                license := "open" }],
    defaults := none, signature := none }

def c5ExtPlaylist : Playlist :=
  { dpVersion := "1.0.0", id := "987fcdeb-51a2-43d1-b456-426614174111",
    slug := "external-playlist", title := "External Playlist",
    created := "2024-01-01T00:00:00Z",
    items := [{ id := "550e8400-e29b-41d4-a716-446655440002", title := "External Item 1",
                source := "https://external-example.com/external-artwork.html",
                duration := 400, license := "open" }],
    defaults := none, signature := some "ed25519:0x1234567890abcdef" }

def c5Env : Env :=
  { (savePlaylist Env.empty c5SelfPlaylist false).2 with
    selfHostedDomains := some "api.feed.feralfile.com" }

def c5Fetch : Fetcher := fun url =>
  if url =
      "https://external-api.example.com/api/v1/playlists/987fcdeb-51a2-43d1-b456-426614174111"
  then some c5ExtPlaylist else none

def c5Group : PlaylistGroup :=
  { id := "6ba7b810-9dad-11d1-80b4-00c04fd430c8", slug := "mixed-group-test",
    title := "Mixed Group Test", curator := "Test Curator",
    created := "2024-01-01T00:00:00Z",
    playlists :=
      ["https://api.feed.feralfile.com/api/v1/playlists/123e4567-e89b-12d3-a456-426614174000",
       "https://external-api.example.com/api/v1/playlists/987fcdeb-51a2-43d1-b456-426614174111"] }

def c7Body : PlaylistUpdateBody :=
  { id := none, slug := none, dpVersion := none, created := none,
    title := some "Updated Test Playlist", defaults := none,
    items := [{ id := some "550e8400-e29b-41d4-a716-446655440123",
                title := "Updated Artwork", source := "https://example.com/updated.html",
                duration := 400, license := "subscription" }] }

def c8BadPlaylistBody : PlaylistUpdateBody :=
  { id := some "custom-id", slug := some "custom-slug", dpVersion := some "2.0.0",
    created := none, title := none, defaults := none, items := [] }

def c8BadGroupBody : GroupUpdateBody :=
  { id := some "custom-id", slug := some "custom-slug", created := none,
    title := "Updated Exhibition", curator := "Test Curator", playlists := [] }

def c8GroupBody : GroupUpdateBody :=
  { id := none, slug := none, created := none,
    title := "Updated Exhibition Title", curator := "Test Curator",
    playlists := ["https://example.com/playlists/550e8400-e29b-41d4-a716-446655440000"] }

def c8GroupEnv : Env := (savePlaylistGroup Env.empty c2Fetch c2Group).2

def c8NoneBody : PlaylistUpdateBody :=
  { id := none, slug := none, dpVersion := none, created := none,
    title := some "Updated Test Playlist", defaults := none, items := [] }

def c9Group : PlaylistGroup :=
  { c1Group with
    playlists :=
      ["https://api.feed.feralfile.com/api/v2/playlists/123e4567-e89b-12d3-a456-426614174000"] }

def c6Env : Env :=
  { Env.empty with
    playlists :=
      [(idKey "playlist-000",
        .playlist { c3Playlist with id := "playlist-000", slug := "pg-0", items := [] }),
       (idKey "playlist-001",
        .playlist { c3Playlist with id := "playlist-001", slug := "pg-1", items := [] }),
       (idKey "playlist-002",
        .playlist { c3Playlist with id := "playlist-002", slug := "pg-2", items := [] }),
       (idKey "playlist-003",
        .playlist { c3Playlist with id := "playlist-003", slug := "pg-3", items := [] }),
       (idKey "playlist-004",
        .playlist { c3Playlist with id := "playlist-004", slug := "pg-4", items := [] })] }

/-! # Proof development

General lemmas about the embedded store, shared by the claim theorems.
String facts are reduced to facts about the underlying character lists. -/

theorem str_ext {a b : String} (h : a.data = b.data) : a = b := by
  cases a; cases b; exact congrArg String.mk h

theorem str_take_ne {a b : String} {n : Nat}
    (h : a.data.take n ≠ b.data.take n) : a ≠ b := by
  intro he; exact h (by rw [he])

theorem take_append_left {l₁ l₂ : List Char} {n : Nat} (hn : n ≤ l₁.length) :
    (l₁ ++ l₂).take n = l₁.take n := by
  rw [List.take_append_eq_append_take, Nat.sub_eq_zero_of_le hn,
    List.take_zero, List.append_nil]

theorem root_take (root s : String) (n : Nat) (hn : n ≤ root.data.length) :
    ((root ++ s).data.take n) = root.data.take n := by
  rw [String.data_append]; exact take_append_left hn

/-- Two composite keys differ whenever their literal roots differ within the
first `n` characters. -/
theorem append_ne_of_roots {r1 r2 : String} (s1 s2 : String) (n : Nat)
    (h1 : n ≤ r1.data.length) (h2 : n ≤ r2.data.length)
    (hne : r1.data.take n ≠ r2.data.take n) : r1 ++ s1 ≠ r2 ++ s2 := by
  intro he
  exact hne (by rw [← root_take r1 s1 n h1, ← root_take r2 s2 n h2, he])

theorem str_append_left_cancel {a b c : String} (h : a ++ b = a ++ c) : b = c := by
  have hd : a.data ++ b.data = a.data ++ c.data := by
    rw [← String.data_append, ← String.data_append, h]
  exact str_ext (List.append_cancel_left hd)

theorem str_append_right_cancel {a b c : String} (h : a ++ c = b ++ c) : a = b := by
  have hd : a.data ++ c.data = b.data ++ c.data := by
    rw [← String.data_append, ← String.data_append, h]
  exact str_ext (List.append_cancel_right hd)

theorem chStartsWith_iff {s pfx : String} :
    chStartsWith s pfx = true ↔ pfx.data <+: s.data := by
  simp [chStartsWith, List.isPrefixOf_iff_prefix]

theorem not_prefix_of_take_ne {l1 l2 : List Char} {n : Nat}
    (hn : n ≤ l1.length) (h : l1.take n ≠ l2.take n) : ¬ l1 <+: l2 := by
  rintro ⟨t, rfl⟩
  exact h (take_append_left hn).symm

namespace KV

theorem get_del_self (kv : KV) (k : String) : (kv.del k).get k = none := by
  induction kv with
  | nil => rfl
  | cons a rest ih =>
    by_cases h : a.1 = k
    · simpa [KV.del, h] using ih
    · simpa [KV.del, List.filter, h, KV.get] using ih

theorem get_del_ne {kv : KV} {k k' : String} (h : k' ≠ k) :
    (kv.del k).get k' = kv.get k' := by
  induction kv with
  | nil => rfl
  | cons a rest ih =>
    by_cases hk : a.1 = k'
    · have ha : a.1 ≠ k := fun he => h (by rw [← hk, he])
      simp [KV.del, List.filter, ha, KV.get, hk, h]
    · by_cases ha : a.1 = k
      · simpa [KV.del, List.filter, ha, KV.get, hk, h, Ne.symm h] using ih
      · simpa [KV.del, List.filter, ha, KV.get, hk, h, Ne.symm h] using ih

theorem get_put_self (kv : KV) (k : String) (v : StoreVal) :
    (kv.put k v).get k = some v := by
  simp [KV.put, KV.get]

theorem get_put_ne {kv : KV} {k k' : String} (v : StoreVal) (h : k' ≠ k) :
    (kv.put k v).get k' = kv.get k' := by
  have hk : k ≠ k' := fun he => h he.symm
  simp [KV.put, KV.get, hk, get_del_ne h]

theorem mem_keys_of_get_some {kv : KV} {k : String} {v : StoreVal}
    (h : kv.get k = some v) : k ∈ kv.keys := by
  induction kv with
  | nil => simp [KV.get] at h
  | cons a rest ih =>
    by_cases ha : a.1 = k
    · simp [KV.keys, ha.symm]
    · simp only [KV.get, ha, if_false] at h
      simpa [KV.keys] using Or.inr (ih h)

theorem mem_of_get_eq_some {kv : KV} {k : String} {v : StoreVal}
    (h : kv.get k = some v) : (k, v) ∈ kv := by
  induction kv with
  | nil => simp [KV.get] at h
  | cons a rest ih =>
    obtain ⟨a1, a2⟩ := a
    by_cases ha : a1 = k
    · subst ha
      simp [KV.get] at h
      subst h
      exact List.mem_cons_self _ _
    · simp only [KV.get, ha, if_false] at h
      exact List.mem_cons_of_mem _ (ih h)

theorem get_some_of_mem_of_nodup {kv : KV} {k : String} {v : StoreVal}
    (hnd : kv.keys.Nodup) (h : (k, v) ∈ kv) : kv.get k = some v := by
  induction kv with
  | nil => simp at h
  | cons a rest ih =>
    rcases List.mem_cons.mp h with he | hrest
    · rw [← he]; simp [KV.get]
    · have hk : a.1 ≠ k := by
        intro he
        exact (List.nodup_cons.mp hnd).1 (he ▸ List.mem_map_of_mem Prod.fst hrest)
      simp only [KV.get, hk, if_false]
      exact ih (List.nodup_cons.mp hnd).2 hrest

theorem keys_del_sublist (kv : KV) (k : String) : (kv.del k).keys.Sublist kv.keys :=
  List.Sublist.map Prod.fst (List.filter_sublist kv)

theorem not_mem_keys_del (kv : KV) (k : String) : k ∉ (kv.del k).keys := by
  intro h
  rcases List.mem_map.mp h with ⟨⟨k', v⟩, hm, he⟩
  have hp := List.of_mem_filter hm
  simp only at he
  subst he
  simp at hp

theorem keys_nodup_del {kv : KV} (k : String) (h : kv.keys.Nodup) :
    (kv.del k).keys.Nodup := h.sublist (keys_del_sublist kv k)

theorem keys_nodup_put {kv : KV} (k : String) (v : StoreVal) (h : kv.keys.Nodup) :
    (kv.put k v).keys.Nodup :=
  List.nodup_cons.mpr ⟨not_mem_keys_del kv k, keys_nodup_del k h⟩

end KV

/-! ### Generic lemmas about folds of store writes -/

theorem get_foldl_invariant {α : Type} (F : KV → α → KV) (l : List α) (k : String)
    (hF : ∀ kv x, x ∈ l → (F kv x).get k = kv.get k) :
    ∀ kv : KV, (l.foldl F kv).get k = kv.get k := by
  induction l with
  | nil => intro kv; rfl
  | cons x rest ih =>
    intro kv
    rw [List.foldl_cons, ih (fun kv y hy => hF kv y (List.mem_cons_of_mem _ hy)),
      hF kv x (List.mem_cons_self _ _)]

theorem get_foldl_stay {α : Type} (F : KV → α → KV) (l : List α) (k : String) (v : StoreVal)
    (hF : ∀ kv x, x ∈ l → (F kv x).get k = kv.get k ∨ (F kv x).get k = some v) :
    ∀ kv : KV, kv.get k = some v → (l.foldl F kv).get k = some v := by
  induction l with
  | nil => intro kv h0; exact h0
  | cons x rest ih =>
    intro kv h0
    rw [List.foldl_cons]
    refine ih (fun kv y hy => hF kv y (List.mem_cons_of_mem _ hy)) _ ?_
    rcases hF kv x (List.mem_cons_self _ _) with h | h
    · rw [h, h0]
    · exact h

theorem get_foldl_write {α : Type} (F : KV → α → KV) (l : List α) (k : String) (v : StoreVal)
    (hF : ∀ kv x, x ∈ l → (F kv x).get k = kv.get k ∨ (F kv x).get k = some v)
    {x : α} (hx : x ∈ l) (hset : ∀ kv, (F kv x).get k = some v) :
    ∀ kv : KV, (l.foldl F kv).get k = some v := by
  induction l with
  | nil => simp at hx
  | cons y rest ih =>
    intro kv
    rw [List.foldl_cons]
    rcases List.mem_cons.mp hx with rfl | hxr
    · exact get_foldl_stay F rest k v
        (fun kv z hz => hF kv z (List.mem_cons_of_mem _ hz)) _ (hset kv)
    · exact ih (fun kv z hz => hF kv z (List.mem_cons_of_mem _ hz)) hxr _

theorem get_foldl_none {α : Type} (F : KV → α → KV) (l : List α) (k : String)
    (hF : ∀ kv x, x ∈ l → kv.get k = none → (F kv x).get k = none) :
    ∀ kv : KV, kv.get k = none → (l.foldl F kv).get k = none := by
  induction l with
  | nil => intro kv h; exact h
  | cons x rest ih =>
    intro kv h0
    rw [List.foldl_cons]
    exact ih (fun kv y hy => hF kv y (List.mem_cons_of_mem _ hy)) _
      (hF kv x (List.mem_cons_self _ _) h0)

theorem get_foldl_erase {α : Type} (F : KV → α → KV) (l : List α) (k : String)
    (hF : ∀ kv x, x ∈ l → kv.get k = none → (F kv x).get k = none)
    {x : α} (hx : x ∈ l) (hset : ∀ kv, (F kv x).get k = none) :
    ∀ kv : KV, (l.foldl F kv).get k = none := by
  induction l with
  | nil => simp at hx
  | cons y rest ih =>
    intro kv
    rw [List.foldl_cons]
    rcases List.mem_cons.mp hx with rfl | hxr
    · exact get_foldl_none F rest k
        (fun kv z hz => hF kv z (List.mem_cons_of_mem _ hz)) _ (hset kv)
    · exact ih (fun kv z hz => hF kv z (List.mem_cons_of_mem _ hz)) hxr _

/-- Deletions preserve absence. -/
theorem get_del_none {kv : KV} {k k' : String} (h : kv.get k = none) :
    (kv.del k').get k = none := by
  by_cases he : k = k'
  · subst he; exact KV.get_del_self kv k
  · rw [KV.get_del_ne he]; exact h

/-! ### Storage-key facts -/

theorem idKey_inj {a b : String} (h : idKey a = idKey b) : a = b :=
  str_append_left_cancel h

theorem itemKey_inj {a b : String} (h : itemKey a = itemKey b) : a = b :=
  str_append_left_cancel h

theorem slugKey_inj {a b : String} (h : slugKey a = slugKey b) : a = b :=
  str_append_left_cancel h

theorem ptgKey_inj_pid {p1 p2 g : String} (h : ptgKey p1 g = ptgKey p2 g) : p1 = p2 :=
  str_append_right_cancel (str_append_left_cancel h)

theorem pbgKey_inj_pid {g p1 p2 : String} (h : pbgKey g p1 = pbgKey g p2) : p1 = p2 :=
  str_append_left_cancel (str_append_left_cancel (str_append_left_cancel h))

theorem gtpKey_inj_pid {g p1 p2 : String} (h : gtpKey g p1 = gtpKey g p2) : p1 = p2 :=
  str_append_left_cancel (str_append_left_cancel (str_append_left_cancel h))

theorem str_append_assoc (a b c : String) : (a ++ b) ++ c = a ++ (b ++ c) := by
  refine str_ext ?_
  simp [String.data_append, List.append_assoc]

theorem chDrop_append (pfx s : String) : chDrop (pfx ++ s) pfx.length = s := by
  refine str_ext ?_
  show ((pfx ++ s).data.drop pfx.length) = s.data
  rw [String.data_append, ← String.length_data, List.drop_left]

theorem chStartsWith_append (pfx s : String) : chStartsWith (pfx ++ s) pfx = true := by
  rw [chStartsWith_iff, String.data_append]
  exact List.prefix_append _ _

/-! The key roots used inside the playlists namespace are pairwise
distinguishable within their first ten characters; both group-record roots
within their first sixteen. -/

theorem ptgKey_ne_pbgKey (a b c d : String) : ptgKey a b ≠ pbgKey c d :=
  append_ne_of_roots _ _ 10 (by decide) (by decide) (by decide)

theorem ptgKey_ne_gtpKey (a b c d : String) : ptgKey a b ≠ gtpKey c d :=
  append_ne_of_roots _ _ 10 (by decide) (by decide) (by decide)

theorem ptgKey_ne_idKey (a b c : String) : ptgKey a b ≠ idKey c :=
  append_ne_of_roots _ _ 10 (by decide) (by decide) (by decide)

theorem ptgKey_ne_slugKey (a b c : String) : ptgKey a b ≠ slugKey c :=
  append_ne_of_roots _ _ 10 (by decide) (by decide) (by decide)

theorem gtpKey_ne_pbgKey (a b c d : String) : gtpKey a b ≠ pbgKey c d :=
  append_ne_of_roots _ _ 10 (by decide) (by decide) (by decide)

theorem gtpKey_ne_idKey (a b c : String) : gtpKey a b ≠ idKey c :=
  append_ne_of_roots _ _ 10 (by decide) (by decide) (by decide)

theorem gtpKey_ne_slugKey (a b c : String) : gtpKey a b ≠ slugKey c :=
  append_ne_of_roots _ _ 10 (by decide) (by decide) (by decide)

theorem pbgKey_ne_idKey (a b c : String) : pbgKey a b ≠ idKey c :=
  append_ne_of_roots _ _ 10 (by decide) (by decide) (by decide)

theorem pbgKey_ne_slugKey (a b c : String) : pbgKey a b ≠ slugKey c :=
  append_ne_of_roots _ _ 10 (by decide) (by decide) (by decide)

theorem idKey_ne_slugKey (a b : String) : idKey a ≠ slugKey b :=
  append_ne_of_roots _ _ 10 (by decide) (by decide) (by decide)

theorem groupIdKey_ne_groupSlugKey (a b : String) : groupIdKey a ≠ groupSlugKey b :=
  append_ne_of_roots _ _ 16 (by decide) (by decide) (by decide)

/-! ### Reading across the group-save write phases -/

theorem writeGroupIndexes_get_other {gid pid k : String}
    (h1 : k ≠ pbgKey gid pid) (h2 : k ≠ ptgKey pid gid) (h3 : k ≠ gtpKey gid pid)
    (kv : KV) : (writeGroupIndexes gid kv pid).get k = kv.get k := by
  unfold writeGroupIndexes
  rw [KV.get_put_ne _ h3, KV.get_put_ne _ h2, KV.get_put_ne _ h1]

theorem writeAllIndexes_get_other {gid k : String} {ids : List String}
    (h : ∀ pid ∈ ids, k ≠ pbgKey gid pid ∧ k ≠ ptgKey pid gid ∧ k ≠ gtpKey gid pid)
    (kv : KV) : (writeAllIndexes gid ids kv).get k = kv.get k :=
  get_foldl_invariant _ _ _
    (fun kv pid hpid =>
      writeGroupIndexes_get_other (h pid hpid).1 (h pid hpid).2.1 (h pid hpid).2.2 kv) kv

theorem writeAllIndexes_get_ptg {gid pid : String} {ids : List String}
    (hx : pid ∈ ids) (kv : KV) :
    (writeAllIndexes gid ids kv).get (ptgKey pid gid) = some (.str gid) := by
  refine get_foldl_write _ _ _ _ ?_ hx ?_ kv
  · intro kv y _
    by_cases he : y = pid
    · subst he
      right
      unfold writeGroupIndexes
      rw [KV.get_put_ne _ (ptgKey_ne_gtpKey _ _ _ _), KV.get_put_self]
    · left
      exact writeGroupIndexes_get_other (ptgKey_ne_pbgKey _ _ _ _)
        (fun hk => he (ptgKey_inj_pid hk).symm) (ptgKey_ne_gtpKey _ _ _ _) kv
  · intro kv
    unfold writeGroupIndexes
    rw [KV.get_put_ne _ (ptgKey_ne_gtpKey _ _ _ _), KV.get_put_self]

theorem writeAllIndexes_get_gtp {gid pid : String} {ids : List String}
    (hx : pid ∈ ids) (kv : KV) :
    (writeAllIndexes gid ids kv).get (gtpKey gid pid) = some (.str pid) := by
  refine get_foldl_write _ _ _ _ ?_ hx ?_ kv
  · intro kv y _
    by_cases he : y = pid
    · subst he
      right
      unfold writeGroupIndexes
      rw [KV.get_put_self]
    · left
      exact writeGroupIndexes_get_other (gtpKey_ne_pbgKey _ _ _ _)
        (Ne.symm (ptgKey_ne_gtpKey _ _ _ _))
        (fun hk => he (gtpKey_inj_pid hk).symm) kv
  · intro kv
    unfold writeGroupIndexes
    rw [KV.get_put_self]

theorem writeAllIndexes_get_pbg {gid pid : String} {ids : List String}
    (hx : pid ∈ ids) (kv : KV) :
    (writeAllIndexes gid ids kv).get (pbgKey gid pid) = some (.str "1") := by
  refine get_foldl_write _ _ _ _ ?_ hx ?_ kv
  · intro kv y _
    by_cases he : y = pid
    · subst he
      right
      unfold writeGroupIndexes
      rw [KV.get_put_ne _ (Ne.symm (gtpKey_ne_pbgKey _ _ _ _)),
        KV.get_put_ne _ (Ne.symm (ptgKey_ne_pbgKey _ _ _ _)), KV.get_put_self]
    · left
      exact writeGroupIndexes_get_other
        (fun hk => he (pbgKey_inj_pid hk).symm)
        (Ne.symm (ptgKey_ne_pbgKey _ _ _ _))
        (Ne.symm (gtpKey_ne_pbgKey _ _ _ _)) kv
  · intro kv
    unfold writeGroupIndexes
    rw [KV.get_put_ne _ (Ne.symm (gtpKey_ne_pbgKey _ _ _ _)),
      KV.get_put_ne _ (Ne.symm (ptgKey_ne_pbgKey _ _ _ _)), KV.get_put_self]

theorem mem_sortedKeysWith {kv : KV} {pfx k : String} :
    k ∈ kv.sortedKeysWith pfx ↔ k ∈ kv.keys ∧ chStartsWith k pfx = true := by
  simp [KV.sortedKeysWith, List.mem_mergeSort, List.mem_filter]

/-- Any key of the reverse-mapping shape contributes its playlist id to the
old-reference scan of the cleanup phase. -/
theorem mem_oldIds_of_gtp {kv : KV} {gid pid : String} {v : StoreVal}
    (hget : kv.get (gtpKey gid pid) = some v) :
    pid ∈ (kv.sortedKeysWith (KEY_GROUP_TO_PLAYLISTS ++ (gid ++ ":"))).map
      (fun k => chDrop k (KEY_GROUP_TO_PLAYLISTS ++ (gid ++ ":")).length) := by
  have hshape : gtpKey gid pid = (KEY_GROUP_TO_PLAYLISTS ++ (gid ++ ":")) ++ pid := by
    unfold gtpKey
    rw [str_append_assoc, str_append_assoc]
  refine List.mem_map.mpr ⟨gtpKey gid pid, ?_, ?_⟩
  · refine mem_sortedKeysWith.mpr ⟨KV.mem_keys_of_get_some hget, ?_⟩
    rw [hshape]
    exact chStartsWith_append _ _
  · rw [hshape]
    exact chDrop_append _ _

theorem cleanup_get_other {kv : KV} {gid k : String} {newIds : List String}
    (h : ∀ pid, pid ∉ newIds →
      k ≠ pbgKey gid pid ∧ k ≠ ptgKey pid gid ∧ k ≠ gtpKey gid pid) :
    (cleanupRemovedMappings kv gid newIds).get k = kv.get k := by
  unfold cleanupRemovedMappings
  refine get_foldl_invariant _ _ _ ?_ kv
  intro kv pid hpid
  have hnot : pid ∉ newIds := by
    have := List.of_mem_filter hpid
    simpa [List.elem_iff] using this
  rw [KV.get_del_ne (h pid hnot).2.2, KV.get_del_ne (h pid hnot).2.1,
    KV.get_del_ne (h pid hnot).1]

theorem cleanup_get_none {kv : KV} {gid pid : String} {newIds : List String} {v : StoreVal}
    (hold : kv.get (gtpKey gid pid) = some v) (hnew : pid ∉ newIds)
    {k : String} (hk : k = pbgKey gid pid ∨ k = ptgKey pid gid ∨ k = gtpKey gid pid) :
    (cleanupRemovedMappings kv gid newIds).get k = none := by
  unfold cleanupRemovedMappings
  have hmem : pid ∈ ((kv.sortedKeysWith (KEY_GROUP_TO_PLAYLISTS ++ (gid ++ ":"))).map
      (fun k => chDrop k (KEY_GROUP_TO_PLAYLISTS ++ (gid ++ ":")).length)).filter
      (fun x => !newIds.contains x) := by
    refine List.mem_filter.mpr ⟨mem_oldIds_of_gtp hold, ?_⟩
    simpa [List.elem_iff] using hnew
  refine get_foldl_erase _ _ _ ?_ hmem ?_ kv
  · intro kv x _ h0
    exact get_del_none (get_del_none (get_del_none h0))
  · intro kv
    rcases hk with rfl | rfl | rfl
    · exact get_del_none (get_del_none (KV.get_del_self _ _))
    · exact get_del_none (KV.get_del_self _ _)
    · exact KV.get_del_self _ _

/-! ### savePlaylist components -/

theorem savePlaylist_fst (env : Env) (p : Playlist) (update : Bool) :
    (savePlaylist env p update).1 = true := by
  unfold savePlaylist
  cases update
  · rfl
  · cases getPlaylistById env p.id <;> rfl

theorem savePlaylist_playlists (env : Env) (p : Playlist) (update : Bool) :
    ((savePlaylist env p update).2).playlists =
      (env.playlists.put (idKey p.id) (.playlist p)).put (slugKey p.slug) (.str p.id) := by
  unfold savePlaylist
  cases update
  · rfl
  · cases getPlaylistById env p.id <;> rfl

theorem savePlaylist_playlistGroups (env : Env) (p : Playlist) (update : Bool) :
    ((savePlaylist env p update).2).playlistGroups = env.playlistGroups := by
  unfold savePlaylist
  cases update
  · rfl
  · cases getPlaylistById env p.id <;> rfl

theorem savePlaylist_selfHostedDomains (env : Env) (p : Playlist) (update : Bool) :
    ((savePlaylist env p update).2).selfHostedDomains = env.selfHostedDomains := by
  unfold savePlaylist
  cases update
  · rfl
  · cases getPlaylistById env p.id <;> rfl

theorem savePlaylist_playlistItems_false (env : Env) (p : Playlist) :
    ((savePlaylist env p false).2).playlistItems =
      p.items.foldl (fun kv it => kv.put (itemKey it.id) (.item it)) env.playlistItems := rfl

theorem itemPutFold_get_other {k : String} {items : List PlaylistItem}
    (h : ∀ it ∈ items, k ≠ itemKey it.id) (kv : KV) :
    (items.foldl (fun kv it => kv.put (itemKey it.id) (.item it)) kv).get k = kv.get k :=
  get_foldl_invariant _ _ _ (fun kv it hit => KV.get_put_ne _ (h it hit)) kv

theorem itemPutFold_get_self {items : List PlaylistItem} {it : PlaylistItem}
    (hit : it ∈ items) (huniq : ∀ it' ∈ items, it'.id = it.id → it' = it) (kv : KV) :
    (items.foldl (fun kv it => kv.put (itemKey it.id) (.item it)) kv).get (itemKey it.id) =
      some (.item it) := by
  refine get_foldl_write _ _ _ _ ?_ hit ?_ kv
  · intro kv y hy
    by_cases he : y.id = it.id
    · right
      rw [huniq y hy he, KV.get_put_self]
    · left
      exact KV.get_put_ne _ (fun hk => he (itemKey_inj hk).symm)
  · intro kv
    exact KV.get_put_self _ _ _

theorem itemDelFold_get_other {k : String} {items : List PlaylistItem}
    (h : ∀ it ∈ items, k ≠ itemKey it.id) (kv : KV) :
    (items.foldl (fun kv it => kv.del (itemKey it.id)) kv).get k = kv.get k :=
  get_foldl_invariant _ _ _ (fun kv it hit => KV.get_del_ne (h it hit)) kv

theorem itemDelFold_get_none {items : List PlaylistItem} {it : PlaylistItem}
    (hit : it ∈ items) (kv : KV) :
    (items.foldl (fun kv it => kv.del (itemKey it.id)) kv).get (itemKey it.id) = none := by
  refine get_foldl_erase _ _ _ ?_ hit ?_ kv
  · intro kv x _ h0
    exact get_del_none h0
  · intro kv
    exact KV.get_del_self _ _

/-! ### persistExternals components -/

theorem persistExternals_playlistGroups (resolved : List Resolved) (env : Env) :
    (persistExternals resolved env).playlistGroups = env.playlistGroups := by
  induction resolved generalizing env with
  | nil => rfl
  | cons r rest ih =>
    unfold persistExternals at *
    rw [List.foldl_cons, ih]
    cases hr : r.isExternal <;> simp [hr, savePlaylist_playlistGroups]

theorem persistExternals_selfHostedDomains (resolved : List Resolved) (env : Env) :
    (persistExternals resolved env).selfHostedDomains = env.selfHostedDomains := by
  induction resolved generalizing env with
  | nil => rfl
  | cons r rest ih =>
    unfold persistExternals at *
    rw [List.foldl_cons, ih]
    cases hr : r.isExternal <;> simp [hr, savePlaylist_selfHostedDomains]

theorem persistExternals_playlists_get {k : String} {resolved : List Resolved}
    (h : ∀ r ∈ resolved, r.isExternal = true →
      k ≠ idKey r.playlist.id ∧ k ≠ slugKey r.playlist.slug) :
    ∀ env : Env, (persistExternals resolved env).playlists.get k = env.playlists.get k := by
  induction resolved with
  | nil => intro env; rfl
  | cons r rest ih =>
    intro env
    unfold persistExternals at *
    rw [List.foldl_cons,
      ih (fun r' hr' => h r' (List.mem_cons_of_mem _ hr'))]
    cases hr : r.isExternal
    · simp [hr]
    · simp only [hr, if_true]
      rw [savePlaylist_playlists]
      have hk := h r (List.mem_cons_self _ _) hr
      rw [KV.get_put_ne _ hk.2, KV.get_put_ne _ hk.1]

theorem persistExternals_items_get {k : String} {resolved : List Resolved}
    (h : ∀ r ∈ resolved, r.isExternal = true → ∀ it ∈ r.playlist.items, k ≠ itemKey it.id) :
    ∀ env : Env, (persistExternals resolved env).playlistItems.get k =
      env.playlistItems.get k := by
  induction resolved with
  | nil => intro env; rfl
  | cons r rest ih =>
    intro env
    unfold persistExternals at *
    rw [List.foldl_cons,
      ih (fun r' hr' => h r' (List.mem_cons_of_mem _ hr'))]
    cases hr : r.isExternal
    · simp [hr]
    · simp only [hr, if_true]
      rw [savePlaylist_playlistItems_false]
      exact itemPutFold_get_other (h r (List.mem_cons_self _ _) hr) _

theorem get_foldl_some_backwards {α : Type} (F : KV → α → KV) (l : List α) (k : String)
    {v : StoreVal}
    (hF : ∀ kv x, x ∈ l → (F kv x).get k = kv.get k ∨ (F kv x).get k = none) :
    ∀ kv : KV, (l.foldl F kv).get k = some v → kv.get k = some v := by
  induction l with
  | nil => intro kv h; exact h
  | cons x rest ih =>
    intro kv h
    rw [List.foldl_cons] at h
    have hx := ih (fun kv y hy => hF kv y (List.mem_cons_of_mem _ hy)) _ h
    rcases hF kv x (List.mem_cons_self _ _) with hp | hp
    · rw [← hp]; exact hx
    · rw [hp] at hx; exact absurd hx (by simp)

/-- Success-path unfolding of the group save. -/
theorem savePlaylistGroup_ok {env : Env} {fetch : Fetcher} {g : PlaylistGroup}
    {resolved : List Resolved}
    (hres : resolveRefs env fetch g.playlists = .ok resolved) :
    savePlaylistGroup env fetch g = (true,
      { persistExternals resolved
          { env with
            playlists := cleanupRemovedMappings env.playlists g.id
              (resolved.map (fun r => r.playlist.id))
            playlistGroups := (env.playlistGroups.put (groupIdKey g.id) (.group g)).put
              (groupSlugKey g.slug) (.str g.id) } with
        playlists := writeAllIndexes g.id (resolved.map (fun r => r.playlist.id))
          (persistExternals resolved
            { env with
              playlists := cleanupRemovedMappings env.playlists g.id
                (resolved.map (fun r => r.playlist.id))
              playlistGroups := (env.playlistGroups.put (groupIdKey g.id) (.group g)).put
                (groupSlugKey g.slug) (.str g.id) }).playlists }) := by
  unfold savePlaylistGroup
  rw [hres]

/-! ### Stay/write lemmas through `persistExternals` -/

theorem persistExternals_record_stay {resolved : List Resolved} {p : Playlist}
    (h : ∀ r' ∈ resolved, r'.isExternal = true → r'.playlist.id = p.id → r'.playlist = p) :
    ∀ env : Env, env.playlists.get (idKey p.id) = some (.playlist p) →
      (persistExternals resolved env).playlists.get (idKey p.id) = some (.playlist p) := by
  induction resolved with
  | nil => intro env h0; exact h0
  | cons r rest ih =>
    intro env h0
    unfold persistExternals at *
    rw [List.foldl_cons]
    refine ih (fun r' hr' => h r' (List.mem_cons_of_mem _ hr')) _ ?_
    cases hr : r.isExternal
    · simpa [hr] using h0
    · simp only [hr, if_true]
      rw [savePlaylist_playlists,
        KV.get_put_ne _ (idKey_ne_slugKey _ _)]
      by_cases he : r.playlist.id = p.id
      · rw [h r (List.mem_cons_self _ _) hr he, KV.get_put_self]
      · rw [KV.get_put_ne _ (fun hk => he (idKey_inj hk).symm)]
        exact h0

theorem persistExternals_record_write {resolved : List Resolved} {p : Playlist}
    (hmem : Resolved.external p ∈ resolved)
    (h : ∀ r' ∈ resolved, r'.isExternal = true → r'.playlist.id = p.id → r'.playlist = p) :
    ∀ env : Env,
      (persistExternals resolved env).playlists.get (idKey p.id) = some (.playlist p) := by
  induction resolved with
  | nil => simp at hmem
  | cons r rest ih =>
    intro env
    rcases List.mem_cons.mp hmem with rfl | hmr
    · unfold persistExternals
      rw [List.foldl_cons]
      refine persistExternals_record_stay
        (fun r' hr' => h r' (List.mem_cons_of_mem _ hr')) _ ?_
      simp only [Resolved.isExternal, if_true]
      rw [savePlaylist_playlists]
      simp only [Resolved.playlist]
      rw [KV.get_put_ne _ (idKey_ne_slugKey _ _), KV.get_put_self]
    · unfold persistExternals
      rw [List.foldl_cons]
      exact ih hmr (fun r' hr' => h r' (List.mem_cons_of_mem _ hr')) _

theorem persistExternals_slug_stay {resolved : List Resolved} {p : Playlist}
    (h : ∀ r' ∈ resolved, r'.isExternal = true → r'.playlist.slug = p.slug → r'.playlist = p) :
    ∀ env : Env, env.playlists.get (slugKey p.slug) = some (.str p.id) →
      (persistExternals resolved env).playlists.get (slugKey p.slug) = some (.str p.id) := by
  induction resolved with
  | nil => intro env h0; exact h0
  | cons r rest ih =>
    intro env h0
    unfold persistExternals at *
    rw [List.foldl_cons]
    refine ih (fun r' hr' => h r' (List.mem_cons_of_mem _ hr')) _ ?_
    cases hr : r.isExternal
    · simpa [hr] using h0
    · simp only [hr, if_true]
      rw [savePlaylist_playlists]
      by_cases he : r.playlist.slug = p.slug
      · rw [h r (List.mem_cons_self _ _) hr he, KV.get_put_self]
      · rw [KV.get_put_ne _ (fun hk => he (slugKey_inj hk).symm),
          KV.get_put_ne _ (Ne.symm (idKey_ne_slugKey _ _))]
        exact h0

theorem persistExternals_slug_write {resolved : List Resolved} {p : Playlist}
    (hmem : Resolved.external p ∈ resolved)
    (h : ∀ r' ∈ resolved, r'.isExternal = true → r'.playlist.slug = p.slug → r'.playlist = p) :
    ∀ env : Env,
      (persistExternals resolved env).playlists.get (slugKey p.slug) = some (.str p.id) := by
  induction resolved with
  | nil => simp at hmem
  | cons r rest ih =>
    intro env
    rcases List.mem_cons.mp hmem with rfl | hmr
    · unfold persistExternals
      rw [List.foldl_cons]
      refine persistExternals_slug_stay
        (fun r' hr' => h r' (List.mem_cons_of_mem _ hr')) _ ?_
      simp only [Resolved.isExternal, if_true]
      rw [savePlaylist_playlists]
      simp only [Resolved.playlist]
      rw [KV.get_put_self]
    · unfold persistExternals
      rw [List.foldl_cons]
      exact ih hmr (fun r' hr' => h r' (List.mem_cons_of_mem _ hr')) _

theorem persistExternals_item_stay {resolved : List Resolved} {it : PlaylistItem}
    (h : ∀ r' ∈ resolved, r'.isExternal = true →
      ∀ it' ∈ r'.playlist.items, it'.id = it.id → it' = it) :
    ∀ env : Env, env.playlistItems.get (itemKey it.id) = some (.item it) →
      (persistExternals resolved env).playlistItems.get (itemKey it.id) = some (.item it) := by
  induction resolved with
  | nil => intro env h0; exact h0
  | cons r rest ih =>
    intro env h0
    unfold persistExternals at *
    rw [List.foldl_cons]
    refine ih (fun r' hr' => h r' (List.mem_cons_of_mem _ hr')) _ ?_
    cases hr : r.isExternal
    · simpa [hr] using h0
    · simp only [hr, if_true]
      rw [savePlaylist_playlistItems_false]
      refine get_foldl_stay _ _ _ _ ?_ _ h0
      intro kv y hy
      by_cases he : y.id = it.id
      · right
        rw [h r (List.mem_cons_self _ _) hr y hy he, KV.get_put_self]
      · left
        exact KV.get_put_ne _ (fun hk => he (itemKey_inj hk).symm)

theorem persistExternals_item_write {resolved : List Resolved} {p : Playlist}
    {it : PlaylistItem} (hmem : Resolved.external p ∈ resolved) (hit : it ∈ p.items)
    (h : ∀ r' ∈ resolved, r'.isExternal = true →
      ∀ it' ∈ r'.playlist.items, it'.id = it.id → it' = it) :
    ∀ env : Env,
      (persistExternals resolved env).playlistItems.get (itemKey it.id) = some (.item it) := by
  induction resolved with
  | nil => simp at hmem
  | cons r rest ih =>
    intro env
    rcases List.mem_cons.mp hmem with rfl | hmr
    · unfold persistExternals
      rw [List.foldl_cons]
      refine persistExternals_item_stay
        (fun r' hr' => h r' (List.mem_cons_of_mem _ hr')) _ ?_
      simp only [Resolved.isExternal, if_true]
      rw [savePlaylist_playlistItems_false]
      simp only [Resolved.playlist]
      exact itemPutFold_get_self hit
        (fun it' hit' he => h _ (List.mem_cons_self _ _) rfl it' hit' he) _
    · unfold persistExternals
      rw [List.foldl_cons]
      exact ih hmr (fun r' hr' => h r' (List.mem_cons_of_mem _ hr')) _

/-! ### Prefix-shape analysis of mapping keys -/

theorem chStartsWith_false_of_take_ne {s pfx : String} {n : Nat}
    (hn : n ≤ pfx.data.length) (hne : pfx.data.take n ≠ s.data.take n) :
    chStartsWith s pfx = false := by
  cases h : chStartsWith s pfx
  · rfl
  · exact absurd (chStartsWith_iff.mp h) (not_prefix_of_take_ne hn hne)

theorem ptgPfx_data (Q : String) :
    (KEY_PLAYLIST_TO_GROUPS ++ (Q ++ ":")).data =
      KEY_PLAYLIST_TO_GROUPS.data ++ (Q.data ++ [':']) := by
  rw [String.data_append, String.data_append]

theorem ptgPfx_take (Q : String) :
    (KEY_PLAYLIST_TO_GROUPS ++ (Q ++ ":")).data.take 10 =
      KEY_PLAYLIST_TO_GROUPS.data.take 10 :=
  root_take _ _ 10 (by decide)

/-- A key whose root differs from `playlist-to-groups:` in the first ten
characters never carries a forward-mapping prefix. -/
theorem not_ptgPfx_of_root {r : String} (s Q : String)
    (hlen : 10 ≤ r.data.length)
    (hne : KEY_PLAYLIST_TO_GROUPS.data.take 10 ≠ r.data.take 10) :
    chStartsWith (r ++ s) (KEY_PLAYLIST_TO_GROUPS ++ (Q ++ ":")) = false := by
  refine @chStartsWith_false_of_take_ne _ _ 10 ?_ ?_
  · rw [ptgPfx_data, List.length_append]
    have h19 : KEY_PLAYLIST_TO_GROUPS.data.length = 19 := by decide
    omega
  · rw [ptgPfx_take, root_take r s 10 hlen]
    exact hne

theorem prefix_colon_eq {as : List Char} : ∀ {bs t : List Char}, ':' ∉ as → ':' ∉ bs →
    ((as ++ [':']) <+: (bs ++ ':' :: t)) → as = bs := by
  induction as with
  | nil =>
    intro bs t _ hb h
    cases bs with
    | nil => rfl
    | cons b bs' =>
      have h1 : ':' = b := by simpa using h
      exact absurd (List.mem_cons.mpr (Or.inl h1)) hb
  | cons a as' ih =>
    intro bs t ha hb h
    cases bs with
    | nil =>
      obtain ⟨h1, -⟩ : a = ':' ∧ (as' ++ [':']) <+: t := by simpa using h
      exact absurd (List.mem_cons.mpr (Or.inl h1.symm)) ha
    | cons b bs' =>
      obtain ⟨h1, h2⟩ : a = b ∧ (as' ++ [':']) <+: (bs' ++ ':' :: t) := by simpa using h
      rw [h1, ih (fun hx => ha (List.mem_cons_of_mem _ hx))
        (fun hx => hb (List.mem_cons_of_mem _ hx)) h2]

/-- A forward-mapping key carries the prefix of playlist `Q` only when it is
`Q`'s own mapping key (ids are colon-free). -/
theorem ptg_prefix_pid_eq {Q pid gid : String}
    (hQ : ':' ∉ Q.data) (hpid : ':' ∉ pid.data)
    (h : chStartsWith (ptgKey pid gid) (KEY_PLAYLIST_TO_GROUPS ++ (Q ++ ":")) = true) :
    pid = Q := by
  rw [chStartsWith_iff, ptgPfx_data] at h
  have hkey : (ptgKey pid gid).data =
      KEY_PLAYLIST_TO_GROUPS.data ++ (pid.data ++ (':' :: gid.data)) := by
    unfold ptgKey
    rw [String.data_append, String.data_append, String.data_append]
    rfl
  rw [hkey] at h
  have h' := (List.prefix_append_right_inj KEY_PLAYLIST_TO_GROUPS.data).mp h
  exact (str_ext (prefix_colon_eq hQ hpid h')).symm

theorem tripleDel_get_cases (kv : KV) (k k1 k2 k3 : String) :
    (((kv.del k1).del k2).del k3).get k = kv.get k ∨
    (((kv.del k1).del k2).del k3).get k = none := by
  by_cases h3 : k = k3
  · subst h3; right; exact KV.get_del_self _ _
  · rw [KV.get_del_ne h3]
    by_cases h2 : k = k2
    · subst h2; right; exact KV.get_del_self _ _
    · rw [KV.get_del_ne h2]
      by_cases h1 : k = k1
      · subst h1; right; exact KV.get_del_self _ _
      · rw [KV.get_del_ne h1]; left; rfl

theorem cleanup_get_some_backwards {kv : KV} {gid k : String} {newIds : List String}
    {v : StoreVal} (h : (cleanupRemovedMappings kv gid newIds).get k = some v) :
    kv.get k = some v := by
  unfold cleanupRemovedMappings at h
  exact get_foldl_some_backwards _ _ _
    (fun kv pid _ => tripleDel_get_cases kv k (pbgKey gid pid) (ptgKey pid gid)
      (gtpKey gid pid)) kv h

theorem mem_getPlaylistGroupsForPlaylist {env : Env} {pid gidv : String} :
    gidv ∈ getPlaylistGroupsForPlaylist env pid ↔
      ∃ k, k ∈ env.playlists.sortedKeysWith (KEY_PLAYLIST_TO_GROUPS ++ (pid ++ ":")) ∧
        env.playlists.get k = some (.str gidv) := by
  unfold getPlaylistGroupsForPlaylist
  rw [List.mem_filterMap]
  constructor
  · rintro ⟨k, hk, hv⟩
    refine ⟨k, hk, ?_⟩
    cases hg : env.playlists.get k with
    | none => rw [hg] at hv; simp at hv
    | some v =>
      cases v <;> rw [hg] at hv <;> simp at hv
      case str s => rw [hv]
  · rintro ⟨k, hk, hv⟩
    exact ⟨k, hk, by rw [hv]⟩

theorem ne_of_ptgPfx_root {k Q : String} (r s : String)
    (hkpfx : chStartsWith k (KEY_PLAYLIST_TO_GROUPS ++ (Q ++ ":")) = true)
    (hlen : 10 ≤ r.data.length)
    (hne : KEY_PLAYLIST_TO_GROUPS.data.take 10 ≠ r.data.take 10) :
    k ≠ r ++ s := by
  intro hk
  rw [hk, not_ptgPfx_of_root s Q hlen hne] at hkpfx
  exact Bool.noConfusion hkpfx

/-- Provenance of a forward-mapping-prefixed binding through one group save:
either it is the group's own mapping entry for `Q`, or it already had that
value after the cleanup phase (and hence before the save). -/
theorem savePlaylistGroup_get_ptgPfx {env : Env} {fetch : Fetcher} {g : PlaylistGroup}
    {resolved : List Resolved} {Q k G : String}
    (hres : resolveRefs env fetch g.playlists = .ok resolved)
    (hkpfx : chStartsWith k (KEY_PLAYLIST_TO_GROUPS ++ (Q ++ ":")) = true)
    (hQ : ':' ∉ Q.data)
    (hids : ∀ pid ∈ resolved.map (fun r => r.playlist.id), ':' ∉ pid.data)
    (hget : ((savePlaylistGroup env fetch g).2).playlists.get k = some (.str G)) :
    (Q ∈ resolved.map (fun r => r.playlist.id) ∧ k = ptgKey Q g.id) ∨
      (cleanupRemovedMappings env.playlists g.id
        (resolved.map (fun r => r.playlist.id))).get k = some (.str G) := by
  rw [savePlaylistGroup_ok hres] at hget
  by_cases hcanon : k = ptgKey Q g.id ∧ Q ∈ resolved.map (fun r => r.playlist.id)
  · exact Or.inl ⟨hcanon.2, hcanon.1⟩
  · right
    have hothers : ∀ pid ∈ resolved.map (fun r => r.playlist.id),
        k ≠ pbgKey g.id pid ∧ k ≠ ptgKey pid g.id ∧ k ≠ gtpKey g.id pid := by
      intro pid hpid
      refine ⟨ne_of_ptgPfx_root _ _ hkpfx (by decide) (by decide), ?_,
        ne_of_ptgPfx_root _ _ hkpfx (by decide) (by decide)⟩
      intro hk
      have hpq : pid = Q := ptg_prefix_pid_eq hQ (hids pid hpid) (hk ▸ hkpfx)
      exact hcanon ⟨by rw [hk, hpq], hpq ▸ hpid⟩
    have hext : ∀ r' ∈ resolved, r'.isExternal = true →
        k ≠ idKey r'.playlist.id ∧ k ≠ slugKey r'.playlist.slug :=
      fun r' _ _ => ⟨ne_of_ptgPfx_root _ _ hkpfx (by decide) (by decide),
        ne_of_ptgPfx_root _ _ hkpfx (by decide) (by decide)⟩
    rw [writeAllIndexes_get_other hothers, persistExternals_playlists_get hext] at hget
    exact hget

/-! ### Item processing of the update handler -/

theorem processItems_ids : ∀ (items : List ItemInput) (ids : List String),
    items.length ≤ ids.length →
    (processItems ids items).map PlaylistItem.id = ids.take items.length
  | [], ids, _ => by simp [processItems]
  | _ :: _, [], h => by simp at h
  | it :: items, fid :: ids, h => by
    have ih := processItems_ids items ids (by simpa using h)
    simp only [processItems, List.zip_cons_cons, List.map_cons, List.length_cons,
      List.take_succ_cons]
    rw [← ih]
    rfl

theorem processItems_id_mem {ids : List String} {items : List ItemInput}
    {y : PlaylistItem} (hy : y ∈ processItems ids items) : y.id ∈ ids := by
  unfold processItems at hy
  obtain ⟨x, hx, hxe⟩ := List.mem_map.mp hy
  rw [← hxe]
  exact (List.of_mem_zip hx).2

theorem processItems_ignores_client_ids (subst : ItemInput → Option String) :
    ∀ (items : List ItemInput) (ids : List String),
    processItems ids (items.map (fun it => { it with id := subst it })) =
      processItems ids items
  | [], _ => by simp [processItems]
  | _ :: _, [] => by simp [processItems]
  | it :: items, fid :: ids => by
    have ih := processItems_ignores_client_ids subst items ids
    simp only [processItems, List.map_cons, List.zip_cons_cons] at *
    rw [ih]

theorem savePlaylist_playlistItems_true {env : Env} {p old : Playlist}
    (hold : getPlaylistById env p.id = some old) :
    ((savePlaylist env p true).2).playlistItems =
      p.items.foldl (fun kv it => kv.put (itemKey it.id) (.item it))
        (old.items.foldl (fun kv it => kv.del (itemKey it.id)) env.playlistItems) := by
  unfold savePlaylist
  rw [hold]
  rfl

/-! ### Resolution failure propagates -/

theorem resolveRefs_error_of_mem {env : Env} {fetch : Fetcher} {urls : List String}
    {url : String} {e : RefError} (hurl : url ∈ urls)
    (hfail : resolvePlaylistReference env fetch url = .error e) :
    ∃ e', resolveRefs env fetch urls = .error e' := by
  induction urls with
  | nil => simp at hurl
  | cons u rest ih =>
    rcases List.mem_cons.mp hurl with rfl | hr
    · exact ⟨e, by simp [resolveRefs, hfail]⟩
    · cases hu : resolvePlaylistReference env fetch u with
      | error e'' => exact ⟨e'', by simp [resolveRefs, hu]⟩
      | ok r =>
        obtain ⟨e', he'⟩ := ih hr
        exact ⟨e', by simp [resolveRefs, hu, he']⟩

theorem savePlaylistGroup_of_resolve_error {env : Env} {fetch : Fetcher}
    {g : PlaylistGroup} {e : RefError}
    (h : resolveRefs env fetch g.playlists = .error e) :
    savePlaylistGroup env fetch g = (false, env) := by
  unfold savePlaylistGroup
  rw [h]

/-! ### URL scanning helpers -/

theorem dropWhile_append_of_forall {p : Char → Bool} {l1 l2 : List Char}
    (h : ∀ x ∈ l1, p x = true) : (l1 ++ l2).dropWhile p = l2.dropWhile p := by
  induction l1 with
  | nil => rfl
  | cons a t ih =>
    rw [List.cons_append, List.dropWhile_cons, if_pos (h a (List.mem_cons_self _ _))]
    exact ih (fun x hx => h x (List.mem_cons_of_mem _ hx))

theorem takeWhile_append_of_forall {p : Char → Bool} {l1 l2 : List Char}
    (h : ∀ x ∈ l1, p x = true) : (l1 ++ l2).takeWhile p = l1 ++ l2.takeWhile p := by
  induction l1 with
  | nil => rfl
  | cons a t ih =>
    rw [List.cons_append, List.takeWhile_cons, if_pos (h a (List.mem_cons_self _ _)),
      ih (fun x hx => h x (List.mem_cons_of_mem _ hx)), List.cons_append]

theorem stripScheme_https (rest : String) :
    stripScheme ("https://" ++ rest) = some rest.data := by
  have hpre : ("https://".data).isPrefixOf (("https://" ++ rest).data) = true := by
    rw [List.isPrefixOf_iff_prefix, String.data_append]
    exact List.prefix_append _ _
  unfold stripScheme
  rw [if_pos hpre, String.data_append,
    show (8 : Nat) = ("https://".data).length from by decide, List.drop_left]

/-! ### Listing bounds -/

theorem KV_list_keys_le (kv : KV) (pfx : String) (limit : Nat) (cursor : Option String)
    (h : limit ≠ 0) : (kv.list pfx (some limit) cursor).keys.length ≤ limit := by
  unfold KV.list
  simp only [if_neg h, List.length_take]
  exact inf_le_left

theorem listAllPlaylists_items_le (env : Env) (limit : Nat) (cursor : Option String)
    (h : limit ≠ 0) : (listAllPlaylists env (some limit) cursor).items.length ≤ limit := by
  unfold listAllPlaylists
  exact le_trans (List.length_filterMap_le _ _)
    (KV_list_keys_le env.playlists KEY_PLAYLIST_ID limit cursor h)

theorem listAllPlaylistItems_items_le (env : Env) (limit : Nat) (cursor : Option String)
    (h : limit ≠ 0) :
    (listAllPlaylistItems env (some limit) cursor).items.length ≤ limit := by
  unfold listAllPlaylistItems
  exact le_trans (List.length_filterMap_le _ _)
    (KV_list_keys_le env.playlistItems KEY_PLAYLIST_ITEM_ID limit cursor h)

theorem listPlaylistItemsByGroup_items_le (env : Env) (gid : String) (limit : Nat) :
    (listPlaylistItemsByGroup env gid limit).items.length ≤ limit := by
  unfold listPlaylistItemsByGroup
  simp only [List.length_take]
  exact inf_le_left

/-! # The claims -/

/-- **C1.** If any URL in a group's reference list fails to resolve —
including a self-hosted URL whose identifier is absent locally or whose path
shape is invalid — then `savePlaylistGroup` reports `false` and the store is
left exactly as it was: in particular no group record, no slug pointer, no
`playlist-by-group` index entry, and no bidirectional mapping for the group
exists afterwards unless it already existed before the call. -/
theorem c1_savePlaylistGroup_allOrNothing (env : Env) (fetch : Fetcher)
    (g : PlaylistGroup) {url : String} {e : RefError}
    (hurl : url ∈ g.playlists)
    (hfail : resolvePlaylistReference env fetch url = .error e) :
    (savePlaylistGroup env fetch g).1 = false ∧
    (savePlaylistGroup env fetch g).2 = env ∧
    ((env.playlistGroups.get (groupIdKey g.id) = none →
        ((savePlaylistGroup env fetch g).2).playlistGroups.get (groupIdKey g.id) = none) ∧
     (env.playlistGroups.get (groupSlugKey g.slug) = none →
        ((savePlaylistGroup env fetch g).2).playlistGroups.get (groupSlugKey g.slug) = none) ∧
     (∀ pid, env.playlists.get (pbgKey g.id pid) = none →
        ((savePlaylistGroup env fetch g).2).playlists.get (pbgKey g.id pid) = none) ∧
     (∀ pid, env.playlists.get (ptgKey pid g.id) = none →
        ((savePlaylistGroup env fetch g).2).playlists.get (ptgKey pid g.id) = none) ∧
     (∀ pid, env.playlists.get (gtpKey g.id pid) = none →
        ((savePlaylistGroup env fetch g).2).playlists.get (gtpKey g.id pid) = none)) := by
  obtain ⟨e', he'⟩ := resolveRefs_error_of_mem hurl hfail
  have hsave := @savePlaylistGroup_of_resolve_error env fetch g e' he'
  rw [hsave]
  exact ⟨rfl, rfl, fun h => h, fun h => h, fun _ h => h, fun _ h => h, fun _ h => h⟩

theorem c1_savePlaylistGroup_allOrNothing_witness :
    (savePlaylistGroup c1Env noFetch c1Group).1 = false ∧
    (savePlaylistGroup c1Env noFetch c1Group).2 = c1Env ∧
    ((savePlaylistGroup c1Env noFetch c1Group).2).playlistGroups.get
      (groupIdKey c1Group.id) = none := by
  have h := @c1_savePlaylistGroup_allOrNothing c1Env noFetch c1Group
    "https://api.feed.feralfile.com/invalid/path/format"
    (RefError.format "https://api.feed.feralfile.com/invalid/path/format")
    (by decide) rfl
  exact ⟨h.1, h.2.1, h.2.2.1 (by decide)⟩

/-- **C3.** Saving a valid playlist and reading it back by id or by slug both
return the record field-for-field; the slug lookup goes through a slug → id
pointer entry holding the playlist's id. -/
theorem c3_savePlaylist_roundTrip (env : Env) (p : Playlist)
    (hid : isUuidFormat p.id = true) (hslug : isUuidFormat p.slug = false) :
    (savePlaylist env p false).1 = true ∧
    getPlaylistByIdOrSlug ((savePlaylist env p false).2) p.id = some p ∧
    getPlaylistByIdOrSlug ((savePlaylist env p false).2) p.slug = some p ∧
    ((savePlaylist env p false).2).playlists.get (slugKey p.slug) = some (.str p.id) := by
  have hrec : ((savePlaylist env p false).2).playlists.get (idKey p.id) =
      some (.playlist p) := by
    rw [savePlaylist_playlists, KV.get_put_ne _ (idKey_ne_slugKey _ _), KV.get_put_self]
  have hptr : ((savePlaylist env p false).2).playlists.get (slugKey p.slug) =
      some (.str p.id) := by
    rw [savePlaylist_playlists, KV.get_put_self]
  refine ⟨savePlaylist_fst env p false, ?_, ?_, hptr⟩
  · rw [getPlaylistByIdOrSlug, if_pos hid]
    unfold getPlaylistById
    rw [hrec]
  · rw [getPlaylistByIdOrSlug, if_neg (by simp [hslug]), hptr]
    show getPlaylistById ((savePlaylist env p false).2) p.id = some p
    unfold getPlaylistById
    rw [hrec]

/-- **C4.** A reference URL is classified self-hosted exactly when
`SELF_HOSTED_DOMAINS` is configured and the URL's `host[:port]` equals one of
its comma-separated entries; a self-hosted reference resolves identically
under any fetcher (no HTTP request is issued) and never yields an
externally-fetched result, while a non-matching URL resolves through the
HTTP GET oracle. -/
theorem c4_selfHosted_classification (env : Env) (fetch fetch' : Fetcher) (url : String) :
    (isSelfHostedUrl url env.selfHostedDomains = true ↔
      ∃ ds h, env.selfHostedDomains = some ds ∧ getUrlHost url = some h ∧
        h ∈ chSplitComma ds) ∧
    (isSelfHostedUrl url env.selfHostedDomains = true →
      resolvePlaylistReference env fetch url = resolvePlaylistReference env fetch' url ∧
      ∀ p, resolvePlaylistReference env fetch url ≠ .ok (.external p)) ∧
    (isSelfHostedUrl url env.selfHostedDomains = false →
      resolvePlaylistReference env fetch url =
        (match fetch url with
         | none => .error (.fetchFail url)
         | some p => .ok (.external p))) := by
  refine ⟨?_, ?_, ?_⟩
  · unfold isSelfHostedUrl
    cases hd : env.selfHostedDomains with
    | none => simp
    | some ds =>
      cases hh : getUrlHost url with
      | none => simp
      | some h => simp [List.elem_iff]
  · intro hsh
    constructor
    · unfold resolvePlaylistReference
      simp only [if_pos hsh]
    · intro p
      unfold resolvePlaylistReference
      simp only [if_pos hsh]
      cases hext : extractPlaylistIdentifier url with
      | none => simp
      | some ident => cases hg : getPlaylistByIdOrSlug env ident <;> simp [hg]
  · intro hsh
    unfold resolvePlaylistReference
    rw [if_neg (by simp [hsh])]

theorem c4_selfHosted_classification_witness :
    (isSelfHostedUrl "http://localhost:8787/api/v1/playlists/x"
      c4Env.selfHostedDomains = true ↔
      ∃ ds h, c4Env.selfHostedDomains = some ds ∧
        getUrlHost "http://localhost:8787/api/v1/playlists/x" = some h ∧
        h ∈ chSplitComma ds) ∧
    (resolvePlaylistReference c4Env noFetch "http://localhost:8787/api/v1/playlists/x" =
      resolvePlaylistReference c4Env c4FetchSome "http://localhost:8787/api/v1/playlists/x") ∧
    (resolvePlaylistReference c4Env noFetch "http://localhost:3000/api/v1/playlists/x" =
      .error (.fetchFail "http://localhost:3000/api/v1/playlists/x")) := by
  have h1 := c4_selfHosted_classification c4Env noFetch c4FetchSome
    "http://localhost:8787/api/v1/playlists/x"
  have h2 := c4_selfHosted_classification c4Env noFetch c4FetchSome
    "http://localhost:3000/api/v1/playlists/x"
  exact ⟨h1.1, (h1.2.1 (by decide)).1, h2.2.2 (by decide)⟩

/-- **C9.** The identifier of a self-hosted reference is the trailing path
segment after the fixed `/api/v1/playlists/` path (the query string is
ignored); a path of any other shape fails extraction, and a self-hosted URL
whose extraction fails makes the enclosing `savePlaylistGroup` report
`false` with the store untouched. -/
theorem c9_identifier_extraction (env : Env) (fetch : Fetcher) (g : PlaylistGroup)
    (host ident q : String)
    (hhost : ∀ c ∈ host.data, c ≠ '/')
    (hne : ident.data ≠ [])
    (hid : ∀ c ∈ ident.data, c ≠ '/' ∧ c ≠ '?')
    (hq : q.data = [] ∨ ∃ t, q.data = '?' :: t) :
    extractPlaylistIdentifier
      ("https://" ++ (host ++ (API_PLAYLIST_PATH ++ (ident ++ q)))) = some ident ∧
    (∀ url path, getUrlPath url = some path →
      ¬ (API_PLAYLIST_PATH.data <+: path) → extractPlaylistIdentifier url = none) ∧
    (∀ url, isSelfHostedUrl url env.selfHostedDomains = true →
      extractPlaylistIdentifier url = none → url ∈ g.playlists →
      savePlaylistGroup env fetch g = (false, env)) := by
  refine ⟨?_, ?_, ?_⟩
  · have hqt : q.data.takeWhile (fun c => !decide (c = '?')) = [] := by
      rcases hq with hq | ⟨t, hq⟩ <;> simp [hq, List.takeWhile_cons]
    have hAPI : ∀ c ∈ API_PLAYLIST_PATH.data, (!decide (c = '?')) = true := by decide
    have hpath : getUrlPath ("https://" ++ (host ++ (API_PLAYLIST_PATH ++ (ident ++ q))))
        = some (API_PLAYLIST_PATH.data ++ ident.data) := by
      unfold getUrlPath
      rw [stripScheme_https]
      simp only [Option.map]
      congr 1
      rw [String.data_append, String.data_append, String.data_append,
        @dropWhile_append_of_forall (fun c => !decide (c = '/')) _ _
          (fun x hx => by simp [hhost x hx])]
      have hdw : (API_PLAYLIST_PATH.data ++ (ident.data ++ q.data)).dropWhile
          (fun c => !decide (c = '/')) = API_PLAYLIST_PATH.data ++ (ident.data ++ q.data) := by
        show List.dropWhile _ ('/' :: _) = _
        rw [List.dropWhile_cons]
        simp
        rfl
      rw [hdw, takeWhile_append_of_forall hAPI,
        takeWhile_append_of_forall (fun x hx => by simp [(hid x hx).2]),
        hqt, List.append_nil]
    have hstep : extractPlaylistIdentifier
        ("https://" ++ (host ++ (API_PLAYLIST_PATH ++ (ident ++ q)))) =
        extractFromPath (API_PLAYLIST_PATH.data ++ ident.data) := by
      unfold extractPlaylistIdentifier
      rw [hpath]
    rw [hstep]
    unfold extractFromPath
    have hpre : (API_PLAYLIST_PATH.data).isPrefixOf
        (API_PLAYLIST_PATH.data ++ ident.data) = true := by
      rw [List.isPrefixOf_iff_prefix]
      exact List.prefix_append _ _
    have hdrop : (API_PLAYLIST_PATH.data ++ ident.data).drop
        (API_PLAYLIST_PATH.data).length = ident.data := List.drop_left _ _
    rw [if_pos hpre]
    simp only [hdrop]
    have hcond : ¬(ident.data.isEmpty || ident.data.contains '/') = true := by
      simp only [Bool.or_eq_true, not_or]
      constructor
      · cases hi : ident.data with
        | nil => exact absurd hi hne
        | cons a t => simp [hi, List.isEmpty]
      · intro hc
        have hmem : '/' ∈ ident.data := List.elem_iff.mp hc
        exact ((hid '/' hmem).1 rfl).elim
    rw [if_neg hcond]
  · intro url path hpath hnp
    have hstep : extractPlaylistIdentifier url = extractFromPath path := by
      unfold extractPlaylistIdentifier
      rw [hpath]
    rw [hstep]
    unfold extractFromPath
    rw [if_neg (by rwa [List.isPrefixOf_iff_prefix])]
  · intro url hsh hext hmem
    have hres : resolvePlaylistReference env fetch url = .error (.format url) := by
      unfold resolvePlaylistReference
      rw [if_pos hsh, hext]
    obtain ⟨e', he'⟩ := resolveRefs_error_of_mem hmem hres
    exact savePlaylistGroup_of_resolve_error he'

/-- **C5.** During a successful group save, playlists resolved from external
URLs get their record, slug pointer, and item records written, while
playlists resolved from self-hosted URLs are not rewritten at all (record,
slug pointer, and item entries are exactly as before the call); yet the
group index entry and both bidirectional mappings are written for every
referenced playlist, self-hosted and external alike. -/
theorem c5_external_only_persistence (env : Env) (fetch : Fetcher) (g : PlaylistGroup)
    {resolved : List Resolved}
    (hres : resolveRefs env fetch g.playlists = .ok resolved) :
    (∀ p, Resolved.selfHosted p ∈ resolved →
      (∀ r' ∈ resolved, r'.isExternal = true →
        r'.playlist.id ≠ p.id ∧ r'.playlist.slug ≠ p.slug ∧
        ∀ it' ∈ r'.playlist.items, ∀ it ∈ p.items, it'.id ≠ it.id) →
      ((savePlaylistGroup env fetch g).2).playlists.get (idKey p.id) =
        env.playlists.get (idKey p.id) ∧
      ((savePlaylistGroup env fetch g).2).playlists.get (slugKey p.slug) =
        env.playlists.get (slugKey p.slug) ∧
      ∀ it ∈ p.items,
        ((savePlaylistGroup env fetch g).2).playlistItems.get (itemKey it.id) =
          env.playlistItems.get (itemKey it.id)) ∧
    (∀ p, Resolved.external p ∈ resolved →
      (∀ r' ∈ resolved, r'.isExternal = true →
        (r'.playlist.id = p.id → r'.playlist = p) ∧
        (r'.playlist.slug = p.slug → r'.playlist = p) ∧
        (∀ it' ∈ r'.playlist.items, ∀ it ∈ p.items, it'.id = it.id → it' = it)) →
      ((savePlaylistGroup env fetch g).2).playlists.get (idKey p.id) =
        some (.playlist p) ∧
      ((savePlaylistGroup env fetch g).2).playlists.get (slugKey p.slug) =
        some (.str p.id) ∧
      ∀ it ∈ p.items,
        ((savePlaylistGroup env fetch g).2).playlistItems.get (itemKey it.id) =
          some (.item it)) ∧
    (∀ r ∈ resolved,
      ((savePlaylistGroup env fetch g).2).playlists.get (pbgKey g.id r.playlist.id) =
        some (.str "1") ∧
      ((savePlaylistGroup env fetch g).2).playlists.get (ptgKey r.playlist.id g.id) =
        some (.str g.id) ∧
      ((savePlaylistGroup env fetch g).2).playlists.get (gtpKey g.id r.playlist.id) =
        some (.str r.playlist.id)) := by
  rw [savePlaylistGroup_ok hres]
  refine ⟨?_, ?_, ?_⟩
  · intro p hmem hcompat
    refine ⟨?_, ?_, ?_⟩
    · rw [writeAllIndexes_get_other
        (fun pid _ => ⟨Ne.symm (pbgKey_ne_idKey _ _ _), Ne.symm (ptgKey_ne_idKey _ _ _),
          Ne.symm (gtpKey_ne_idKey _ _ _)⟩),
        persistExternals_playlists_get
          (fun r' hr' hext => ⟨fun hk => (hcompat r' hr' hext).1 (idKey_inj hk).symm,
            idKey_ne_slugKey _ _⟩)]
      exact cleanup_get_other (fun pid _ => ⟨Ne.symm (pbgKey_ne_idKey _ _ _),
        Ne.symm (ptgKey_ne_idKey _ _ _), Ne.symm (gtpKey_ne_idKey _ _ _)⟩)
    · rw [writeAllIndexes_get_other
        (fun pid _ => ⟨Ne.symm (pbgKey_ne_slugKey _ _ _), Ne.symm (ptgKey_ne_slugKey _ _ _),
          Ne.symm (gtpKey_ne_slugKey _ _ _)⟩),
        persistExternals_playlists_get
          (fun r' hr' hext => ⟨Ne.symm (idKey_ne_slugKey _ _),
            fun hk => (hcompat r' hr' hext).2.1 (slugKey_inj hk).symm⟩)]
      exact cleanup_get_other (fun pid _ => ⟨Ne.symm (pbgKey_ne_slugKey _ _ _),
        Ne.symm (ptgKey_ne_slugKey _ _ _), Ne.symm (gtpKey_ne_slugKey _ _ _)⟩)
    · intro it hit
      exact persistExternals_items_get
        (fun r' hr' hext it' hit' =>
          fun hk => (hcompat r' hr' hext).2.2 it' hit' it hit (itemKey_inj hk).symm) _
  · intro p hmem hcompat
    refine ⟨?_, ?_, ?_⟩
    · rw [writeAllIndexes_get_other
        (fun pid _ => ⟨Ne.symm (pbgKey_ne_idKey _ _ _), Ne.symm (ptgKey_ne_idKey _ _ _),
          Ne.symm (gtpKey_ne_idKey _ _ _)⟩)]
      exact persistExternals_record_write hmem
        (fun r' hr' hext => (hcompat r' hr' hext).1) _
    · rw [writeAllIndexes_get_other
        (fun pid _ => ⟨Ne.symm (pbgKey_ne_slugKey _ _ _), Ne.symm (ptgKey_ne_slugKey _ _ _),
          Ne.symm (gtpKey_ne_slugKey _ _ _)⟩)]
      exact persistExternals_slug_write hmem
        (fun r' hr' hext => (hcompat r' hr' hext).2.1) _
    · intro it hit
      exact persistExternals_item_write hmem hit
        (fun r' hr' hext it' hit' he => (hcompat r' hr' hext).2.2 it' hit' it hit he) _
  · intro r hr
    have hpid : r.playlist.id ∈ resolved.map (fun r => r.playlist.id) :=
      List.mem_map_of_mem _ hr
    exact ⟨writeAllIndexes_get_pbg hpid _, writeAllIndexes_get_ptg hpid _,
      writeAllIndexes_get_gtp hpid _⟩

/-- **C2.** After every successful `savePlaylistGroup`, both the forward
`playlist-to-groups` and the reverse `group-to-playlists` mapping entries
exist for every referenced playlist; and after a successful re-save of the
same group whose reference list no longer contains playlist `Q`, both
mapping entries for `(Q, G)` are deleted while the entries of every retained
playlist `P` persist, so `getPlaylistGroupsForPlaylist Q` no longer contains
the group's id. -/
theorem c2_bidirectional_symmetry_and_pruning (env : Env) (fetch1 fetch2 : Fetcher)
    (g g2 : PlaylistGroup) {rs1 rs2 : List Resolved} (P Q : String)
    (hres1 : resolveRefs env fetch1 g.playlists = .ok rs1)
    (hres2 : resolveRefs ((savePlaylistGroup env fetch1 g).2) fetch2 g2.playlists = .ok rs2)
    (hg2 : g2.id = g.id)
    (hQ1 : Q ∈ rs1.map (fun r => r.playlist.id))
    (hQ2 : Q ∉ rs2.map (fun r => r.playlist.id))
    (hP2 : P ∈ rs2.map (fun r => r.playlist.id))
    (hQc : ':' ∉ Q.data)
    (hids1 : ∀ pid ∈ rs1.map (fun r => r.playlist.id), ':' ∉ pid.data)
    (hids2 : ∀ pid ∈ rs2.map (fun r => r.playlist.id), ':' ∉ pid.data)
    (hclean : ∀ k, chStartsWith k (KEY_PLAYLIST_TO_GROUPS ++ (Q ++ ":")) = true →
      env.playlists.get k ≠ some (.str g.id)) :
    (∀ pid ∈ rs1.map (fun r => r.playlist.id),
      ((savePlaylistGroup env fetch1 g).2).playlists.get (ptgKey pid g.id) =
        some (.str g.id) ∧
      ((savePlaylistGroup env fetch1 g).2).playlists.get (gtpKey g.id pid) =
        some (.str pid)) ∧
    ((savePlaylistGroup ((savePlaylistGroup env fetch1 g).2) fetch2 g2).2).playlists.get
      (ptgKey Q g.id) = none ∧
    ((savePlaylistGroup ((savePlaylistGroup env fetch1 g).2) fetch2 g2).2).playlists.get
      (gtpKey g.id Q) = none ∧
    ((savePlaylistGroup ((savePlaylistGroup env fetch1 g).2) fetch2 g2).2).playlists.get
      (ptgKey P g.id) = some (.str g.id) ∧
    ((savePlaylistGroup ((savePlaylistGroup env fetch1 g).2) fetch2 g2).2).playlists.get
      (gtpKey g.id P) = some (.str P) ∧
    g.id ∉ getPlaylistGroupsForPlaylist
      ((savePlaylistGroup ((savePlaylistGroup env fetch1 g).2) fetch2 g2).2) Q := by
  have hgtpQ : ((savePlaylistGroup env fetch1 g).2).playlists.get (gtpKey g.id Q) =
      some (.str Q) := by
    rw [savePlaylistGroup_ok hres1]
    exact writeAllIndexes_get_gtp hQ1 _
  refine ⟨?_, ?_, ?_, ?_, ?_, ?_⟩
  · intro pid hpid
    rw [savePlaylistGroup_ok hres1]
    exact ⟨writeAllIndexes_get_ptg hpid _, writeAllIndexes_get_gtp hpid _⟩
  · rw [savePlaylistGroup_ok hres2]
    simp only [hg2]
    rw [writeAllIndexes_get_other (fun pid hpid =>
        ⟨ptgKey_ne_pbgKey _ _ _ _,
         fun hk => hQ2 (by rw [ptgKey_inj_pid hk]; exact hpid),
         ptgKey_ne_gtpKey _ _ _ _⟩),
      persistExternals_playlists_get (fun r' _ _ =>
        ⟨ptgKey_ne_idKey _ _ _, ptgKey_ne_slugKey _ _ _⟩)]
    exact cleanup_get_none hgtpQ (by simpa using hQ2) (Or.inr (Or.inl rfl))
  · rw [savePlaylistGroup_ok hres2]
    simp only [hg2]
    rw [writeAllIndexes_get_other (fun pid hpid =>
        ⟨gtpKey_ne_pbgKey _ _ _ _,
         Ne.symm (ptgKey_ne_gtpKey _ _ _ _),
         fun hk => hQ2 (by rw [gtpKey_inj_pid hk]; exact hpid)⟩),
      persistExternals_playlists_get (fun r' _ _ =>
        ⟨gtpKey_ne_idKey _ _ _, gtpKey_ne_slugKey _ _ _⟩)]
    exact cleanup_get_none hgtpQ (by simpa using hQ2) (Or.inr (Or.inr rfl))
  · rw [savePlaylistGroup_ok hres2]
    simp only [hg2]
    exact writeAllIndexes_get_ptg hP2 _
  · rw [savePlaylistGroup_ok hres2]
    simp only [hg2]
    exact writeAllIndexes_get_gtp hP2 _
  · intro hmem
    obtain ⟨k, hkmem, hkget⟩ := mem_getPlaylistGroupsForPlaylist.mp hmem
    have hkpfx := (mem_sortedKeysWith.mp hkmem).2
    rcases savePlaylistGroup_get_ptgPfx hres2 hkpfx hQc hids2 hkget with
      ⟨hQin, _⟩ | hc2
    · exact hQ2 hQin
    · by_cases hkc : k = ptgKey Q g2.id
      · rw [hkc] at hc2
        have hold2 : ((savePlaylistGroup env fetch1 g).2).playlists.get
            (gtpKey g2.id Q) = some (.str Q) := by
          rw [hg2]; exact hgtpQ
        rw [cleanup_get_none hold2 (by simpa using hQ2) (Or.inr (Or.inl rfl))] at hc2
        exact Option.noConfusion hc2
      · have henv1 := cleanup_get_some_backwards hc2
        rcases savePlaylistGroup_get_ptgPfx hres1 hkpfx hQc hids1 henv1 with
          ⟨_, hk1⟩ | hc1
        · exact hkc (by rw [hk1, hg2])
        · exact hclean k hkpfx (cleanup_get_some_backwards hc1)

/-- **C7.** A successful PUT replaces a playlist's entire item set: every
resulting item carries a freshly generated id drawn from the server's
stream, client-supplied item ids are ignored on create and update alike, and
after the update every item id of the previous version no longer resolves
through the playlist-item lookup. -/
theorem c7_put_replaces_item_set (env : Env) (key : String) (body : PlaylistUpdateBody)
    (freshIds : List String) (newSig : Option String) {p0 : Playlist}
    (hbody : body.id = none ∧ body.slug = none ∧ body.dpVersion = none ∧
      body.created = none)
    (hfound : getPlaylistByIdOrSlug env key = some p0)
    (hrec : env.playlists.get (idKey p0.id) = some (.playlist p0))
    (hlen : body.items.length ≤ freshIds.length)
    (hfresh : ∀ fid ∈ freshIds, ∀ it0 ∈ p0.items, fid ≠ it0.id) :
    (∃ p', (handleUpdatePlaylist env key body freshIds newSig).1 = .ok p' ∧
      p'.items.map PlaylistItem.id = freshIds.take body.items.length) ∧
    (∀ subst : ItemInput → Option String,
      processItems freshIds (body.items.map (fun it => { it with id := subst it })) =
        processItems freshIds body.items) ∧
    (∀ it0 ∈ p0.items,
      getPlaylistItemById ((handleUpdatePlaylist env key body freshIds newSig).2)
        it0.id = none) := by
  have hrun : handleUpdatePlaylist env key body freshIds newSig =
      (.ok { dpVersion := p0.dpVersion, id := p0.id, slug := p0.slug,
             title := body.title.getD p0.title, created := p0.created,
             items := processItems freshIds body.items, defaults := body.defaults,
             signature := newSig },
        (savePlaylist env
          { dpVersion := p0.dpVersion, id := p0.id, slug := p0.slug,
            title := body.title.getD p0.title, created := p0.created,
            items := processItems freshIds body.items, defaults := body.defaults,
            signature := newSig } true).2) := by
    unfold handleUpdatePlaylist
    rw [hbody.1, hbody.2.1, hbody.2.2.1, hbody.2.2.2, hfound]
    rfl
  refine ⟨?_, fun subst => processItems_ignores_client_ids subst body.items freshIds, ?_⟩
  · exact ⟨_, by rw [hrun], processItems_ids body.items freshIds hlen⟩
  · intro it0 hit0
    rw [hrun]
    unfold getPlaylistItemById
    have hold : getPlaylistById env
        ({ dpVersion := p0.dpVersion, id := p0.id, slug := p0.slug,
           title := body.title.getD p0.title, created := p0.created,
           items := processItems freshIds body.items, defaults := body.defaults,
           signature := newSig } : Playlist).id = some p0 := by
      show getPlaylistById env p0.id = some p0
      unfold getPlaylistById
      rw [hrec]
    rw [savePlaylist_playlistItems_true hold,
      itemPutFold_get_other (fun y hy hk =>
        hfresh y.id (processItems_id_mem hy) it0 hit0 (itemKey_inj hk).symm),
      itemDelFold_get_none hit0]

theorem c7_put_replaces_item_set_witness :
    (∃ p', (handleUpdatePlaylist ((savePlaylist Env.empty c3Playlist false).2)
        c3Playlist.id c7Body ["650e8400-e29b-41d4-a716-446655440077"] none).1 = .ok p' ∧
      p'.items.map PlaylistItem.id = ["650e8400-e29b-41d4-a716-446655440077"]) ∧
    getPlaylistItemById ((handleUpdatePlaylist ((savePlaylist Env.empty c3Playlist false).2)
        c3Playlist.id c7Body ["650e8400-e29b-41d4-a716-446655440077"] none).2)
      "550e8400-e29b-41d4-a716-446655440001" = none := by
  have h := @c7_put_replaces_item_set ((savePlaylist Env.empty c3Playlist false).2)
    c3Playlist.id c7Body ["650e8400-e29b-41d4-a716-446655440077"] none
    c3Playlist ⟨rfl, rfl, rfl, rfl⟩ rfl rfl (by decide) (by decide)
  refine ⟨?_, ?_⟩
  · obtain ⟨p', hp1, hp2⟩ := h.1
    exact ⟨p', hp1, hp2.trans (by decide)⟩
  · exact h.2.2
      { id := "550e8400-e29b-41d4-a716-446655440001"
        title := "Test Artwork"
        source := "https://example.com/artwork.html"
        duration := 300
        license := "open" }
      (by decide)

/-- **C8.** A PUT payload carrying any protected field (`id`, `slug`,
`dpVersion`, `created` for playlists; `id`, `slug`, `created` for groups) is
rejected as a validation failure with the store untouched; a PUT without
protected fields succeeds and the result carries the stored record's
protected values — in particular the slug is never regenerated, even when
the title changes. -/
theorem c8_protected_fields_validation (env : Env) (fetch : Fetcher) (key : String)
    (pb : PlaylistUpdateBody) (gb : GroupUpdateBody) (freshIds : List String)
    (newSig : Option String) :
    ((pb.id.isSome || pb.slug.isSome || pb.dpVersion.isSome || pb.created.isSome) = true →
      handleUpdatePlaylist env key pb freshIds newSig = (.error .protectedFields, env)) ∧
    (∀ p0, pb.id = none → pb.slug = none → pb.dpVersion = none → pb.created = none →
      getPlaylistByIdOrSlug env key = some p0 →
      ∃ p', (handleUpdatePlaylist env key pb freshIds newSig).1 = .ok p' ∧
        p'.id = p0.id ∧ p'.slug = p0.slug ∧ p'.dpVersion = p0.dpVersion ∧
        p'.created = p0.created) ∧
    ((gb.id.isSome || gb.slug.isSome || gb.created.isSome) = true →
      handleUpdatePlaylistGroup env fetch key gb = (.error .protectedFields, env)) ∧
    (∀ g0, gb.id = none → gb.slug = none → gb.created = none →
      getPlaylistGroupByIdOrSlug env key = some g0 →
      ∀ g' env', handleUpdatePlaylistGroup env fetch key gb = (.ok g', env') →
        g'.id = g0.id ∧ g'.slug = g0.slug ∧ g'.created = g0.created ∧
        g'.title = gb.title) := by
  refine ⟨?_, ?_, ?_, ?_⟩
  · intro h
    unfold handleUpdatePlaylist
    rw [if_pos h]
  · intro p0 h1 h2 h3 h4 hfound
    have hrun : handleUpdatePlaylist env key pb freshIds newSig =
        (.ok { dpVersion := p0.dpVersion, id := p0.id, slug := p0.slug,
               title := pb.title.getD p0.title, created := p0.created,
               items := processItems freshIds pb.items, defaults := pb.defaults,
               signature := newSig },
          (savePlaylist env
            { dpVersion := p0.dpVersion, id := p0.id, slug := p0.slug,
              title := pb.title.getD p0.title, created := p0.created,
              items := processItems freshIds pb.items, defaults := pb.defaults,
              signature := newSig } true).2) := by
      unfold handleUpdatePlaylist
      rw [h1, h2, h3, h4, hfound]
      rfl
    exact ⟨{ dpVersion := p0.dpVersion, id := p0.id, slug := p0.slug,
             title := pb.title.getD p0.title, created := p0.created,
             items := processItems freshIds pb.items, defaults := pb.defaults,
             signature := newSig },
      by rw [hrun], rfl, rfl, rfl, rfl⟩
  · intro h
    unfold handleUpdatePlaylistGroup
    rw [if_pos h]
  · intro g0 h1 h2 h3 hfound g' env' heq
    have hrun : handleUpdatePlaylistGroup env fetch key gb =
        (match savePlaylistGroup env fetch
            { id := g0.id, slug := g0.slug, title := gb.title, curator := gb.curator,
              created := g0.created, playlists := gb.playlists } with
         | (true, e) =>
           ((.ok { id := g0.id, slug := g0.slug, title := gb.title,
                   curator := gb.curator, created := g0.created,
                   playlists := gb.playlists } : Except ApiError PlaylistGroup), e)
         | (false, e) => (.error .resolveFailed, e)) := by
      unfold handleUpdatePlaylistGroup
      rw [h1, h2, h3, hfound]
      rfl
    rw [hrun] at heq
    cases hs : savePlaylistGroup env fetch
        { id := g0.id, slug := g0.slug, title := gb.title, curator := gb.curator,
          created := g0.created, playlists := gb.playlists } with
    | mk b e =>
      rw [hs] at heq
      cases b
      · simp at heq
      · have hg' : g' =
            { id := g0.id
              slug := g0.slug
              title := gb.title
              curator := gb.curator
              created := g0.created
              playlists := gb.playlists } := by
          have := congrArg Prod.fst heq
          simp at this
          exact this.symm
        rw [hg']
        exact ⟨rfl, rfl, rfl, rfl⟩

theorem c8_protected_fields_validation_witness :
    handleUpdatePlaylist ((savePlaylist Env.empty c3Playlist false).2) "test-id"
      c8BadPlaylistBody [] none =
      (.error .protectedFields, (savePlaylist Env.empty c3Playlist false).2) ∧
    (∃ p', (handleUpdatePlaylist ((savePlaylist Env.empty c3Playlist false).2)
        c3Playlist.id c8NoneBody [] none).1 = .ok p' ∧
      p'.slug = c3Playlist.slug ∧ p'.dpVersion = c3Playlist.dpVersion) ∧
    handleUpdatePlaylistGroup c8GroupEnv c2Fetch "test-id" c8BadGroupBody =
      (.error .protectedFields, c8GroupEnv) ∧
    (∃ g' env', handleUpdatePlaylistGroup c8GroupEnv c2Fetch c2Group.id c8GroupBody =
        (.ok g', env') ∧ g'.slug = c2Group.slug ∧ g'.title = "Updated Exhibition Title") := by
  refine ⟨?_, ?_, ?_, ?_⟩
  · exact (c8_protected_fields_validation ((savePlaylist Env.empty c3Playlist false).2)
      noFetch "test-id" c8BadPlaylistBody c8GroupBody [] none).1 (by decide)
  · obtain ⟨p', h1, _, h3, h4, _⟩ :=
      (c8_protected_fields_validation ((savePlaylist Env.empty c3Playlist false).2)
        noFetch c3Playlist.id c8NoneBody c8GroupBody [] none).2.1 c3Playlist
        rfl rfl rfl rfl rfl
    exact ⟨p', h1, h3, h4⟩
  · exact (c8_protected_fields_validation c8GroupEnv c2Fetch "test-id"
      c8NoneBody c8BadGroupBody [] none).2.2.1 (by decide)
  · have hrun : handleUpdatePlaylistGroup c8GroupEnv c2Fetch c2Group.id c8GroupBody =
        (.ok { id := c2Group.id, slug := c2Group.slug, title := c8GroupBody.title,
               curator := c8GroupBody.curator, created := c2Group.created,
               playlists := c8GroupBody.playlists },
          (handleUpdatePlaylistGroup c8GroupEnv c2Fetch c2Group.id c8GroupBody).2) := rfl
    have hfields := (c8_protected_fields_validation c8GroupEnv c2Fetch c2Group.id
      c8NoneBody c8GroupBody [] none).2.2.2 c2Group rfl rfl rfl rfl _ _ hrun
    exact ⟨_, _, hrun, hfields.2.1, hfields.2.2.2⟩

theorem c2_bidirectional_symmetry_and_pruning_witness :
    ((savePlaylistGroup ((savePlaylistGroup Env.empty c2Fetch c2Group).2)
        c2Fetch c2Group2).2).playlists.get (ptgKey c2P2.id c2Group.id) = none ∧
    ((savePlaylistGroup ((savePlaylistGroup Env.empty c2Fetch c2Group).2)
        c2Fetch c2Group2).2).playlists.get (gtpKey c2Group.id c2P2.id) = none ∧
    ((savePlaylistGroup ((savePlaylistGroup Env.empty c2Fetch c2Group).2)
        c2Fetch c2Group2).2).playlists.get (ptgKey c3Playlist.id c2Group.id) =
      some (.str c2Group.id) ∧
    c2Group.id ∉ getPlaylistGroupsForPlaylist
      ((savePlaylistGroup ((savePlaylistGroup Env.empty c2Fetch c2Group).2)
        c2Fetch c2Group2).2) c2P2.id := by
  have h := @c2_bidirectional_symmetry_and_pruning Env.empty c2Fetch c2Fetch
    c2Group c2Group2 [.external c3Playlist, .external c2P2]
    [.external c3Playlist] c3Playlist.id c2P2.id
    rfl rfl rfl (by decide) (by decide) (by decide) (by decide) (by decide) (by decide)
    (fun _ _ h => Option.noConfusion h)
  exact ⟨h.2.1, h.2.2.1, h.2.2.2.1, h.2.2.2.2.2⟩

theorem c5_external_only_persistence_witness :
    ((savePlaylistGroup c5Env c5Fetch c5Group).2).playlists.get
      (idKey c5SelfPlaylist.id) = c5Env.playlists.get (idKey c5SelfPlaylist.id) ∧
    ((savePlaylistGroup c5Env c5Fetch c5Group).2).playlists.get
      (idKey c5ExtPlaylist.id) = some (.playlist c5ExtPlaylist) ∧
    ((savePlaylistGroup c5Env c5Fetch c5Group).2).playlists.get
      (ptgKey c5SelfPlaylist.id c5Group.id) = some (.str c5Group.id) ∧
    ((savePlaylistGroup c5Env c5Fetch c5Group).2).playlists.get
      (gtpKey c5Group.id c5ExtPlaylist.id) = some (.str c5ExtPlaylist.id) := by
  have h := @c5_external_only_persistence c5Env c5Fetch c5Group
    [.selfHosted c5SelfPlaylist, .external c5ExtPlaylist] rfl
  exact ⟨(h.1 c5SelfPlaylist (by decide) (by decide)).1,
    (h.2.1 c5ExtPlaylist (by decide) (by decide)).1,
    (h.2.2 (.selfHosted c5SelfPlaylist) (by decide)).2.1,
    (h.2.2 (.external c5ExtPlaylist) (by decide)).2.2⟩

theorem c9_identifier_extraction_witness :
    extractPlaylistIdentifier
      ("https://" ++ ("api.feed.feralfile.com" ++ (API_PLAYLIST_PATH ++
        ("550e8400-e29b-41d4-a716-446655440000" ++ "?query=param")))) =
      some "550e8400-e29b-41d4-a716-446655440000" ∧
    savePlaylistGroup c1Env noFetch c9Group = (false, c1Env) := by
  have h1 := c9_identifier_extraction c1Env noFetch c9Group
    "api.feed.feralfile.com" "550e8400-e29b-41d4-a716-446655440000" "?query=param"
    (by decide) (by decide) (by decide) (Or.inr ⟨"query=param".data, by decide⟩)
  refine ⟨h1.1, ?_⟩
  exact h1.2.2
    "https://api.feed.feralfile.com/api/v2/playlists/123e4567-e89b-12d3-a456-426614174000"
    (by decide) rfl (by decide)

/-- **C10.** GET /api/v1/playlists rejects a `limit` above 1000 and
GET /api/v1/playlist-items rejects a `limit` outside 1..100, both as
`invalid_limit` without performing any listing; every accepted request
returns at most the requested number of items. -/
theorem c10_limit_validation (env : Env) (cursor : Option String)
    (gid? : Option String) :
    (∀ limit, 1000 < limit →
      handleListPlaylists env (some limit) cursor = .error .invalidLimit) ∧
    (∀ limit, limit < 1 ∨ 100 < limit →
      handleListPlaylistItems env gid? (some limit) cursor = .error .invalidLimit) ∧
    (∀ limit r, handleListPlaylists env (some limit) cursor = .ok r →
      r.items.length ≤ limit) ∧
    (∀ limit r, handleListPlaylistItems env gid? (some limit) cursor = .ok r →
      r.items.length ≤ limit) := by
  refine ⟨?_, ?_, ?_, ?_⟩
  · intro limit h
    unfold handleListPlaylists
    rw [if_pos (by simp [Option.getD]; omega)]
  · intro limit h
    unfold handleListPlaylistItems
    rw [if_pos (by simp [Option.getD]; omega)]
  · intro limit r hok
    unfold handleListPlaylists at hok
    by_cases hv : (some limit).getD 100 < 1 || 1000 < (some limit).getD 100
    · rw [if_pos hv] at hok
      exact absurd hok (by simp)
    · rw [if_neg hv] at hok
      have hlim : limit ≠ 0 := by
        simp [Option.getD] at hv
        omega
      have := listAllPlaylists_items_le env ((some limit).getD 100) cursor
        (by simpa [Option.getD] using hlim)
      rw [show (some limit).getD 100 = limit from rfl] at this
      have hr : r = listAllPlaylists env (some limit) cursor := by
        have := congrArg (fun x => match x with
          | Except.ok v => some v
          | Except.error _ => none) hok
        simpa using this.symm
      rw [hr]
      exact this
  · intro limit r hok
    unfold handleListPlaylistItems at hok
    by_cases hv : (some limit).getD 100 < 1 || 100 < (some limit).getD 100
    · rw [if_pos hv] at hok
      exact absurd hok (by simp)
    · rw [if_neg hv] at hok
      have hlim : limit ≠ 0 := by
        simp [Option.getD] at hv
        omega
      cases gid? with
      | none =>
        have hr : r = listAllPlaylistItems env (some limit) cursor := by
          have := congrArg (fun x => match x with
            | Except.ok v => some v
            | Except.error _ => none) hok
          simpa using this.symm
        rw [hr]
        exact listAllPlaylistItems_items_le env limit cursor hlim
      | some gid =>
        have hr : r = listPlaylistItemsByGroup env gid limit := by
          have := congrArg (fun x => match x with
            | Except.ok v => some v
            | Except.error _ => none) hok
          simpa using this.symm
        rw [hr]
        exact listPlaylistItemsByGroup_items_le env gid limit

theorem c10_limit_validation_witness :
    handleListPlaylists ((savePlaylist Env.empty c3Playlist false).2) (some 1001) none =
      .error .invalidLimit ∧
    handleListPlaylistItems ((savePlaylist Env.empty c3Playlist false).2) none
      (some 101) none = .error .invalidLimit ∧
    (∀ r, handleListPlaylists ((savePlaylist Env.empty c3Playlist false).2)
        (some 3) none = .ok r → r.items.length ≤ 3) := by
  have h := c10_limit_validation ((savePlaylist Env.empty c3Playlist false).2) none none
  exact ⟨h.1 1001 (by decide), h.2.1 101 (Or.inr (by decide)), fun r => h.2.2.1 3 r⟩

theorem c3_savePlaylist_roundTrip_witness :
    getPlaylistByIdOrSlug ((savePlaylist Env.empty c3Playlist false).2)
      "550e8400-e29b-41d4-a716-446655440000" = some c3Playlist ∧
    getPlaylistByIdOrSlug ((savePlaylist Env.empty c3Playlist false).2)
      "test-playlist-1234" = some c3Playlist := by
  have h := c3_savePlaylist_roundTrip Env.empty c3Playlist (by decide) (by decide)
  exact ⟨h.2.1, h.2.2.1⟩

/-! ## Pagination exhaustiveness

The sorted prefix scan of the KV mock is strictly sorted when the store's
keys are duplicate-free; the cursor's `findIndex` then resumes exactly one
past the key it names, which makes cursor-following enumerate the scan list
in order without gaps or repeats. -/

theorem strLeB_trans (a b c : String) (hab : strLeB a b = true)
    (hbc : strLeB b c = true) : strLeB a c = true :=
  decide_eq_true (le_trans (of_decide_eq_true hab) (of_decide_eq_true hbc))

theorem strLeB_total (a b : String) : (strLeB a b || strLeB b a) = true := by
  simp only [strLeB, Bool.or_eq_true, decide_eq_true_eq]
  exact le_total a.data b.data

theorem sortedKeysWith_le_sorted (kv : KV) (pfx : String) :
    (kv.sortedKeysWith pfx).Pairwise (fun a b => strLeB a b = true) :=
  List.sorted_mergeSort strLeB_trans strLeB_total _

theorem sortedKeysWith_nodup {kv : KV} (pfx : String) (h : kv.keys.Nodup) :
    (kv.sortedKeysWith pfx).Nodup :=
  (List.mergeSort_perm _ strLeB).nodup_iff.mpr (h.filter _)

theorem sortedKeysWith_lt_sorted {kv : KV} (pfx : String) (h : kv.keys.Nodup) :
    (kv.sortedKeysWith pfx).Pairwise (fun a b => a.data < b.data) := by
  have h1 := sortedKeysWith_le_sorted kv pfx
  have h2 : (kv.sortedKeysWith pfx).Pairwise (fun a b : String => a ≠ b) :=
    sortedKeysWith_nodup pfx h
  exact (h1.and h2).imp (fun hab =>
    lt_of_le_of_ne (of_decide_eq_true hab.1) (fun he => hab.2 (str_ext he)))

/-- On a strictly sorted key list, the cursor `findIndex` resumes right after
the named key. -/
theorem startIdx_getElem {A : List String}
    (hA : A.Pairwise (fun a b => a.data < b.data)) {i : Nat}
    (hi : i < A.length) : KV.startIdx A[i] A = i + 1 := by
  induction A generalizing i with
  | nil => simp at hi
  | cons k rest ih =>
    rcases List.pairwise_cons.mp hA with ⟨hk, htail⟩
    cases i with
    | zero =>
      simp only [List.getElem_cons_zero]
      rw [KV.startIdx]
      have hlt : strLtB k k = false := by simp [strLtB]
      rw [if_neg (by simp [hlt])]
      cases rest with
      | nil => rfl
      | cons k2 r2 =>
        rw [KV.startIdx]
        have hlt2 : strLtB k k2 = true := decide_eq_true (hk k2 (by simp))
        rw [if_pos hlt2]
    | succ j =>
      have hj : j < rest.length := by simpa using hi
      simp only [List.getElem_cons_succ]
      rw [KV.startIdx]
      have hkj : k.data < (rest[j]).data := hk _ (List.getElem_mem hj)
      have hlt : strLtB (rest[j]) k = false := by
        simp only [strLtB, decide_eq_false_iff_not]
        exact lt_asymm hkj
      rw [if_neg (by simp [hlt]), ih htail hj]

theorem nodup_filterMap_on {α β : Type} {f : α → Option β} :
    ∀ {l : List α}, l.Nodup →
      (∀ a ∈ l, ∀ a' ∈ l, ∀ b, f a = some b → f a' = some b → a = a') →
      (l.filterMap f).Nodup := by
  intro l
  induction l with
  | nil => intro _ _; simp
  | cons a rest ih =>
    intro hnd hinj
    rcases List.nodup_cons.mp hnd with ⟨hna, hrest⟩
    have ihr := ih hrest
      (fun x hx y hy b h1 h2 => hinj x (by simp [hx]) y (by simp [hy]) b h1 h2)
    cases hfa : f a with
    | none => rw [List.filterMap_cons_none hfa]; exact ihr
    | some b =>
      rw [List.filterMap_cons_some hfa]
      refine List.nodup_cons.mpr ⟨?_, ihr⟩
      intro hbmem
      rcases List.mem_filterMap.mp hbmem with ⟨a2, ha2, hfa2⟩
      have : a = a2 := hinj a (by simp) a2 (by simp [ha2]) b hfa hfa2
      exact hna (this ▸ ha2)

theorem filterMap_length_all_some {α β : Type} {f : α → Option β} :
    ∀ {l : List α}, (∀ a ∈ l, (f a).isSome) → (l.filterMap f).length = l.length := by
  intro l
  induction l with
  | nil => intro _; rfl
  | cons a rest ih =>
    intro h
    have ha : (f a).isSome := h a (by simp)
    cases hfa : f a with
    | none => rw [hfa] at ha; simp at ha
    | some b =>
      rw [List.filterMap_cons_some hfa, List.length_cons, List.length_cons,
        ih (fun x hx => h x (by simp [hx]))]

theorem filterMap_getLast_all_some {α β : Type} {f : α → Option β} :
    ∀ {l : List α}, (∀ a ∈ l, (f a).isSome) → l ≠ [] →
      ∃ a b, l.getLast? = some a ∧ f a = some b ∧
        (l.filterMap f).getLast? = some b := by
  intro l
  induction l with
  | nil => intro _ h; exact absurd rfl h
  | cons a rest ih =>
    intro h _
    cases rest with
    | nil =>
      have ha := h a (by simp)
      cases hfa : f a with
      | none => rw [hfa] at ha; simp at ha
      | some b =>
        exact ⟨a, b, rfl, hfa, by rw [List.filterMap_cons_some hfa]; rfl⟩
    | cons a2 rest2 =>
      rcases ih (fun x hx => h x (by simp [hx])) (by simp) with
        ⟨x, b, hlast, hfx, hflast⟩
      refine ⟨x, b, ?_, hfx, ?_⟩
      · rw [List.getLast?_cons_cons]; exact hlast
      · cases hfa : f a with
        | none => rw [List.filterMap_cons_none hfa]; exact hflast
        | some c =>
          rw [List.filterMap_cons_some hfa]
          cases hL : List.filterMap f (a2 :: rest2) with
          | nil =>
            rw [hL] at hflast; simp at hflast
          | cons y ys =>
            rw [List.getLast?_cons_cons]
            rw [hL] at hflast; exact hflast

/-! ### One page of `listAllPlaylists`, componentwise -/

theorem listAllPlaylists_items_eq (env : Env) {limit : Nat} (hl : limit ≠ 0)
    (cursor : Option String) :
    (listAllPlaylists env (some limit) cursor).items =
      (((env.playlists.sortedKeysWith KEY_PLAYLIST_ID).drop
          (cursorStart (env.playlists.sortedKeysWith KEY_PLAYLIST_ID) cursor)).take
            limit).filterMap (fun k => parsePlaylistVal (env.playlists.get k)) := by
  unfold listAllPlaylists KV.list cursorStart
  cases cursor <;> simp [hl]

theorem listAllPlaylists_hasMore_eq (env : Env) {limit : Nat} (hl : limit ≠ 0)
    (cursor : Option String) :
    (listAllPlaylists env (some limit) cursor).hasMore =
      decide (cursorStart (env.playlists.sortedKeysWith KEY_PLAYLIST_ID) cursor +
        limit < (env.playlists.sortedKeysWith KEY_PLAYLIST_ID).length) := by
  unfold listAllPlaylists KV.list cursorStart
  cases cursor <;> simp [hl, Bool.not_not]

theorem listAllPlaylists_cursor_eq (env : Env) {limit : Nat} (hl : limit ≠ 0)
    (cursor : Option String) :
    (listAllPlaylists env (some limit) cursor).cursor =
      if cursorStart (env.playlists.sortedKeysWith KEY_PLAYLIST_ID) cursor +
          limit < (env.playlists.sortedKeysWith KEY_PLAYLIST_ID).length then
        (((env.playlists.sortedKeysWith KEY_PLAYLIST_ID).drop
          (cursorStart (env.playlists.sortedKeysWith KEY_PLAYLIST_ID)
            cursor)).take limit).getLast?
      else none := by
  unfold listAllPlaylists KV.list cursorStart
  cases cursor <;> simp [hl]

theorem collectPages_succ (env : Env) (limit f : Nat) (cursor : Option String) :
    collectPages env limit (f + 1) cursor =
      if (listAllPlaylists env (some limit) cursor).hasMore then
        match (listAllPlaylists env (some limit) cursor).cursor with
        | some c =>
          ((listAllPlaylists env (some limit) cursor).items ++
            (collectPages env limit f (some c)).1,
            (collectPages env limit f (some c)).2)
        | none => ((listAllPlaylists env (some limit) cursor).items, false)
      else ((listAllPlaylists env (some limit) cursor).items, true) := rfl

theorem collectPages_succ_more (env : Env) (limit f : Nat) (cursor : Option String)
    (c : String) (hm : (listAllPlaylists env (some limit) cursor).hasMore = true)
    (hcur : (listAllPlaylists env (some limit) cursor).cursor = some c) :
    collectPages env limit (f + 1) cursor =
      ((listAllPlaylists env (some limit) cursor).items ++
        (collectPages env limit f (some c)).1,
        (collectPages env limit f (some c)).2) := by
  rw [collectPages_succ, hm, hcur]
  rfl

theorem collectPages_succ_done (env : Env) (limit f : Nat) (cursor : Option String)
    (hm : (listAllPlaylists env (some limit) cursor).hasMore = false) :
    collectPages env limit (f + 1) cursor =
      ((listAllPlaylists env (some limit) cursor).items, true) := by
  rw [collectPages_succ, hm]
  rfl

/-! ### Store well-formedness gives total, injective page lookups -/

theorem playlistRecordsWF_val {env : Env} (hwf : playlistRecordsWF env = true)
    {k : String} {v : StoreVal} (hmem : (k, v) ∈ env.playlists)
    (hpfx : chStartsWith k KEY_PLAYLIST_ID = true) :
    ∃ p, v = .playlist p ∧ k = idKey p.id := by
  have h := List.all_eq_true.mp hwf _ hmem
  simp only [hpfx, Bool.not_true, Bool.false_or] at h
  cases v with
  | playlist p => exact ⟨p, rfl, by simpa using h⟩
  | str s => simp at h
  | group g => simp at h
  | item i => simp at h

/-- Every key of the sorted ID scan resolves to a playlist record stored
under its own id's key. -/
theorem scanKey_lookup {env : Env} (hnd : env.playlists.keys.Nodup)
    (hwf : playlistRecordsWF env = true) {k : String}
    (hk : k ∈ env.playlists.sortedKeysWith KEY_PLAYLIST_ID) :
    ∃ p, parsePlaylistVal (env.playlists.get k) = some p ∧ k = idKey p.id := by
  rcases mem_sortedKeysWith.mp hk with ⟨hkeys, hpfx⟩
  rcases List.mem_map.mp hkeys with ⟨⟨k2, v⟩, hmem, hk2⟩
  cases hk2
  rcases playlistRecordsWF_val hwf hmem hpfx with ⟨p, hv, hkey⟩
  subst hv
  have hget := KV.get_some_of_mem_of_nodup hnd hmem
  exact ⟨p, by rw [hget]; rfl, hkey⟩

/-- Cursor-following from scan position `i` returns the remainder of the
scan, in order, and terminates with the `hasMore = false` flag. -/
theorem collectPages_from (env : Env) {limit : Nat} (hlim : 1 ≤ limit)
    (hnd : env.playlists.keys.Nodup) :
    ∀ (fuel i : Nat) (cursor : Option String),
      cursorStart (env.playlists.sortedKeysWith KEY_PLAYLIST_ID) cursor = i →
      (env.playlists.sortedKeysWith KEY_PLAYLIST_ID).length - i < fuel →
      collectPages env limit fuel cursor =
        (((env.playlists.sortedKeysWith KEY_PLAYLIST_ID).drop i).filterMap
          (fun k => parsePlaylistVal (env.playlists.get k)), true) := by
  intro fuel
  induction fuel with
  | zero => intro i cursor _ hf; omega
  | succ f ih =>
    intro i cursor hc hf
    have hl0 : limit ≠ 0 := by omega
    by_cases hm : i + limit < (env.playlists.sortedKeysWith KEY_PLAYLIST_ID).length
    · have hbound : i + limit - 1 <
          (env.playlists.sortedKeysWith KEY_PLAYLIST_ID).length := by omega
      have hhm : (listAllPlaylists env (some limit) cursor).hasMore = true := by
        rw [listAllPlaylists_hasMore_eq env hl0 cursor, hc]
        exact decide_eq_true hm
      have hpage_len : (((env.playlists.sortedKeysWith
          KEY_PLAYLIST_ID).drop i).take limit).length = limit := by
        rw [List.length_take, List.length_drop]
        exact min_eq_left (by omega)
      have hlast : (((env.playlists.sortedKeysWith KEY_PLAYLIST_ID).drop
          i).take limit).getLast? =
          some ((env.playlists.sortedKeysWith
            KEY_PLAYLIST_ID)[i + limit - 1]) := by
        rw [List.getLast?_eq_getElem?, hpage_len, List.getElem?_take,
          if_pos (by omega : limit - 1 < limit), List.getElem?_drop]
        rw [(by omega : i + (limit - 1) = i + limit - 1),
          List.getElem?_eq_getElem hbound]
      have hcur : (listAllPlaylists env (some limit) cursor).cursor =
          some ((env.playlists.sortedKeysWith
            KEY_PLAYLIST_ID)[i + limit - 1]) := by
        rw [listAllPlaylists_cursor_eq env hl0 cursor, hc, if_pos hm]
        exact hlast
      have hnext : cursorStart (env.playlists.sortedKeysWith KEY_PLAYLIST_ID)
          (some ((env.playlists.sortedKeysWith
            KEY_PLAYLIST_ID)[i + limit - 1])) = i + limit := by
        show KV.startIdx _ _ = i + limit
        rw [startIdx_getElem (sortedKeysWith_lt_sorted KEY_PLAYLIST_ID hnd) hbound]
        omega
      rw [collectPages_succ_more env limit f cursor _ hhm hcur,
        listAllPlaylists_items_eq env hl0 cursor, hc,
        ih (i + limit) _ hnext (by omega)]
      show ((((env.playlists.sortedKeysWith KEY_PLAYLIST_ID).drop i).take
          limit).filterMap (fun k => parsePlaylistVal (env.playlists.get k)) ++
          ((env.playlists.sortedKeysWith KEY_PLAYLIST_ID).drop
            (i + limit)).filterMap
            (fun k => parsePlaylistVal (env.playlists.get k)), true) = _
      rw [← List.drop_drop, ← List.filterMap_append, List.take_append_drop]
    · have hhm : (listAllPlaylists env (some limit) cursor).hasMore = false := by
        rw [listAllPlaylists_hasMore_eq env hl0 cursor, hc]
        exact decide_eq_false hm
      rw [collectPages_succ_done env limit f cursor hhm,
        listAllPlaylists_items_eq env hl0 cursor, hc,
        List.take_of_length_le (by rw [List.length_drop]; omega)]

/-- A non-final page holds exactly `limit` records and hands back the last
returned key as cursor. -/
theorem page_shape {env : Env} {limit : Nat} (hl0 : limit ≠ 0)
    (hnd : env.playlists.keys.Nodup) (hwf : playlistRecordsWF env = true)
    (cursor : Option String)
    (hm2 : cursorStart (env.playlists.sortedKeysWith KEY_PLAYLIST_ID) cursor +
      limit < (env.playlists.sortedKeysWith KEY_PLAYLIST_ID).length) :
    (listAllPlaylists env (some limit) cursor).items.length = limit ∧
    ∃ pl, (listAllPlaylists env (some limit) cursor).items.getLast? = some pl ∧
      (listAllPlaylists env (some limit) cursor).cursor = some (idKey pl.id) := by
  rw [listAllPlaylists_items_eq env hl0 cursor,
    listAllPlaylists_cursor_eq env hl0 cursor, if_pos hm2]
  have hsub : ∀ k ∈ ((env.playlists.sortedKeysWith KEY_PLAYLIST_ID).drop
      (cursorStart (env.playlists.sortedKeysWith KEY_PLAYLIST_ID)
        cursor)).take limit, k ∈ env.playlists.sortedKeysWith KEY_PLAYLIST_ID :=
    fun k hk => List.mem_of_mem_drop (List.mem_of_mem_take hk)
  have hall : ∀ k ∈ ((env.playlists.sortedKeysWith KEY_PLAYLIST_ID).drop
      (cursorStart (env.playlists.sortedKeysWith KEY_PLAYLIST_ID)
        cursor)).take limit,
      (parsePlaylistVal (env.playlists.get k)).isSome := by
    intro k hk
    rcases scanKey_lookup hnd hwf (hsub k hk) with ⟨p, hp, _⟩
    rw [hp]; rfl
  have hplen : (((env.playlists.sortedKeysWith KEY_PLAYLIST_ID).drop
      (cursorStart (env.playlists.sortedKeysWith KEY_PLAYLIST_ID)
        cursor)).take limit).length = limit := by
    rw [List.length_take, List.length_drop]
    exact min_eq_left (by omega)
  have hne : ((env.playlists.sortedKeysWith KEY_PLAYLIST_ID).drop
      (cursorStart (env.playlists.sortedKeysWith KEY_PLAYLIST_ID)
        cursor)).take limit ≠ [] := by
    intro hcon
    rw [hcon] at hplen
    exact hl0 hplen.symm
  rcases filterMap_getLast_all_some hall hne with ⟨a, b, hlast, hfa, hflast⟩
  have hamem : a ∈ env.playlists.sortedKeysWith KEY_PLAYLIST_ID :=
    hsub a (List.mem_of_getLast?_eq_some hlast)
  have hakey : a = idKey b.id := by
    rcases scanKey_lookup hnd hwf hamem with ⟨p, hp, hkey⟩
    rw [hfa] at hp
    rw [hkey, Option.some.inj hp]
  refine ⟨?_, b, hflast, ?_⟩
  · rw [filterMap_length_all_some hall, hplen]
  · rw [hlast, hakey]

/-- C6: For every duplicate-free, well-formed store of playlists and every
limit ≥ 1, following returned cursors from a cursorless first call makes
`listAllPlaylists` pages concatenate to exactly the stored playlists, with no
duplicates and no omissions, terminating with `hasMore = false`; every page
with `hasMore = true` holds exactly `limit` records and returns the last
returned key as its cursor, and a page with `hasMore = false` returns no
cursor. -/
theorem c6_pagination_exhaustive (env : Env) (limit : Nat) (hlim : 1 ≤ limit)
    (hnd : env.playlists.keys.Nodup) (hwf : playlistRecordsWF env = true) :
    collectPages env limit
        ((env.playlists.sortedKeysWith KEY_PLAYLIST_ID).length + 1) none =
      (storedPlaylists env, true) ∧
    (storedPlaylists env).Nodup ∧
    (∀ p, (idKey p.id, StoreVal.playlist p) ∈ env.playlists →
      p ∈ storedPlaylists env) ∧
    (∀ cursor, (listAllPlaylists env (some limit) cursor).hasMore = true →
      (listAllPlaylists env (some limit) cursor).items.length = limit ∧
      ∃ pl, (listAllPlaylists env (some limit) cursor).items.getLast? =
          some pl ∧
        (listAllPlaylists env (some limit) cursor).cursor =
          some (idKey pl.id)) ∧
    (∀ cursor, (listAllPlaylists env (some limit) cursor).hasMore = false →
      (listAllPlaylists env (some limit) cursor).cursor = none) := by
  have hl0 : limit ≠ 0 := by omega
  refine ⟨?_, ?_, ?_, ?_, ?_⟩
  · rw [collectPages_from env hlim hnd _ 0 none rfl (by omega), List.drop_zero]
    rfl
  · show ((env.playlists.sortedKeysWith KEY_PLAYLIST_ID).filterMap
      (fun k => parsePlaylistVal (env.playlists.get k))).Nodup
    refine nodup_filterMap_on (sortedKeysWith_nodup KEY_PLAYLIST_ID hnd) ?_
    intro a ha a2 ha2 b h1 h2
    rcases scanKey_lookup hnd hwf ha with ⟨p1, hp1, hk1⟩
    rcases scanKey_lookup hnd hwf ha2 with ⟨p2, hp2, hk2⟩
    rw [h1] at hp1
    rw [h2] at hp2
    rw [hk1, hk2, ← Option.some.inj hp1, ← Option.some.inj hp2]
  · intro p hmem
    have hkmem : idKey p.id ∈ env.playlists.sortedKeysWith KEY_PLAYLIST_ID := by
      refine mem_sortedKeysWith.mpr ⟨?_, ?_⟩
      · exact List.mem_map.mpr ⟨(idKey p.id, StoreVal.playlist p), hmem, rfl⟩
      · exact chStartsWith_append KEY_PLAYLIST_ID p.id
    have hget := KV.get_some_of_mem_of_nodup hnd hmem
    show p ∈ (env.playlists.sortedKeysWith KEY_PLAYLIST_ID).filterMap
      (fun k => parsePlaylistVal (env.playlists.get k))
    exact List.mem_filterMap.mpr ⟨idKey p.id, hkmem, by rw [hget]; rfl⟩
  · intro cursor hm
    refine page_shape hl0 hnd hwf cursor ?_
    rw [listAllPlaylists_hasMore_eq env hl0 cursor] at hm
    exact of_decide_eq_true hm
  · intro cursor hm
    rw [listAllPlaylists_hasMore_eq env hl0 cursor] at hm
    rw [listAllPlaylists_cursor_eq env hl0 cursor,
      if_neg (of_decide_eq_false hm)]

theorem c6_pagination_exhaustive_witness :
    collectPages c6Env 3
        ((c6Env.playlists.sortedKeysWith KEY_PLAYLIST_ID).length + 1) none =
      (storedPlaylists c6Env, true) ∧
    (storedPlaylists c6Env).Nodup ∧
    (listAllPlaylists c6Env (some 3) none).items.length = 3 ∧
    (∃ pl, (listAllPlaylists c6Env (some 3) none).items.getLast? = some pl ∧
      (listAllPlaylists c6Env (some 3) none).cursor = some (idKey pl.id)) ∧
    (listAllPlaylists c6Env (some 3)
      (some (idKey "playlist-002"))).cursor = none := by
  have h := c6_pagination_exhaustive c6Env 3 (by decide) (by decide) (by decide)
  have hA : c6Env.playlists.sortedKeysWith KEY_PLAYLIST_ID =
      [idKey "playlist-000", idKey "playlist-001", idKey "playlist-002",
       idKey "playlist-003", idKey "playlist-004"] := by
    show (c6Env.playlists.keys.filter
        (fun k => chStartsWith k KEY_PLAYLIST_ID)).mergeSort strLeB = _
    rw [show c6Env.playlists.keys.filter
        (fun k => chStartsWith k KEY_PLAYLIST_ID) =
        [idKey "playlist-000", idKey "playlist-001", idKey "playlist-002",
         idKey "playlist-003", idKey "playlist-004"] from rfl]
    exact List.mergeSort_of_sorted (by decide)
  have hm0 : (listAllPlaylists c6Env (some 3) none).hasMore = true := by
    rw [listAllPlaylists_hasMore_eq c6Env (by decide) none, hA]
    rfl
  have hm1 : (listAllPlaylists c6Env (some 3)
      (some (idKey "playlist-002"))).hasMore = false := by
    rw [listAllPlaylists_hasMore_eq c6Env (by decide)
      (some (idKey "playlist-002")), hA]
    rfl
  exact ⟨h.1, h.2.1, (h.2.2.2.1 none hm0).1, (h.2.2.2.1 none hm0).2,
    h.2.2.2.2 _ hm1⟩

end DP1
